import Mathlib

/-!
Verification model of the uatlib market engine.

This file gives a shallow embedding of the core of `uatlib`
(`include/uat/simulation.hpp`, `src/simulation.cpp`): the permit ledger,
the agent registry, and the per-tick auction algorithm of `simulate`.

Modelling conventions:
* The C++ `uint_t` and `id_t` (`std::size_t`) are modelled as `Nat`; the
  only sentinel arithmetic in the source is `no_owner = max size_t`, kept as
  the literal `2 ^ 64 - 1`.
* `value_t` (C++ `double`) is modelled as `ℚ`.  The engine never performs
  arithmetic on values — it only copies and compares them — so any linear
  order is a faithful model of the comparisons performed.
* Each bucket of the ledger deque (`std::unordered_map<permit, record>`) is
  an association list.  The engine never iterates a bucket; it only does
  keyed lookup (`operator[]`, which default-inserts) and keyed writes, so
  lookup/update association-list operations model it exactly.
* The Mersenne-twister stream `std::mt19937 rnd(seed)` is modelled by an
  abstract stream function `rng : Int → Nat → Int` carried in the options:
  `rng s n` is the `n`-th value drawn from a generator seeded with `s`.
  The state counts the draws made so far, preserving the draw order of the
  source (one draw for the factory, then one per active agent in each of
  the bid, ask and stop loops).
* Agents (type-erased `any_agent`) are modelled as pure call schedules:
  `bid_phase t0 seed` returns the list of `bid(region, t, v)` calls the
  agent issues, in order, and similarly for `ask_phase`; `stop` is a pure
  function of `(t0, seed)`.  The engine-side semantics of each call (the
  `bid`/`ask` closures of `simulate`) is embedded exactly.
* `trade_callback` is modelled by having the tick return the list of
  `trade_info_t` values it would be invoked with, in order.
  `status_callback`, `on_bought` and `on_sold` only observe state (they
  receive copies or are notifications), so they are not modelled.
-/

/-! ## Basic types (`type.hpp`, `agent.hpp`, `simulation.hpp`).
The C++ `uint_t` (tick counts) and `id_t` (agent ids) are `Nat` here. -/

abbrev value_t := ℚ

/-- `constexpr auto no_owner = std::numeric_limits<Nat>::max();` with
64-bit `size_t`. -/
def no_owner : Nat := 2 ^ 64 - 1

namespace permit_private_status

/-- `permit_private_status::on_sale` with its C++ member initializers. -/
structure on_sale where
  owner : Nat := no_owner
  min_value : value_t := 0
  highest_bidder : Nat := no_owner
  highest_bid : value_t := 0
deriving DecidableEq

end permit_private_status

/-- The variant
`std::variant<on_sale, in_use, out_of_limits>` that is the `current` field
of a private permit record.  The single field of `in_use` is inlined. -/
inductive permit_current_t where
  | on_sale (s : permit_private_status.on_sale)
  | in_use (owner : Nat)
  | out_of_limits
deriving DecidableEq

/-- `trade_value_t` from `agent.hpp`: one history entry. -/
structure trade_value_t where
  min_value : value_t
  highest_bid : value_t
deriving DecidableEq

/-- `permit_private_status_t`: the variant plus the trade history. -/
structure permit_private_status_t where
  current : permit_current_t
  history : List trade_value_t
deriving DecidableEq

/-- The record created by `std::unordered_map::operator[]` on first access:
value-initialized, i.e. the variant holds a default `on_sale` and the
history is empty. -/
def default_record : permit_private_status_t :=
  { current := .on_sale {}, history := [] }

/-- `trade_info_t` (the argument of `trade_callback`).  The C++ fields
`from`/`to` are renamed `from_agent`/`to_agent` (`from` is reserved). -/
structure trade_info_t (R : Type) where
  transaction_time : Nat
  from_agent : Nat
  to_agent : Nat
  location : R
  time : Nat
  value : value_t
deriving DecidableEq

/-- A type-erased agent (`any_agent`), as a pure call schedule: see the
module comment. -/
structure any_agent (R : Type) where
  bid_phase : Nat → Int → List (R × Nat × value_t)
  ask_phase : Nat → Int → List (R × Nat × value_t)
  stop : Nat → Int → Bool

instance {R : Type} : Inhabited (any_agent R) :=
  ⟨⟨fun _ _ => [], fun _ _ => [], fun _ _ => true⟩⟩

/-! ## Agent registry (`agents_private_status_fn`, `simulation.cpp`) -/

/-- The agent registry: a deque of agents with a `first_id_` offset and the
sorted list of active ids.  Generic in the stored agent type. -/
structure agents_private_status_fn (A : Type) where
  first_id : Nat
  agents : List A
  active : List Nat

namespace agents_private_status_fn

/-- `insert`: `active_.push_back(first_id_ + agents_.size());
agents_.push_back(std::move(a));` -/
def insert {A : Type} (a : A) (self : agents_private_status_fn A) :
    agents_private_status_fn A :=
  { self with
    active := self.active ++ [self.first_id + self.agents.length]
    agents := self.agents ++ [a] }

/-- `update_active`: replace `active_`; if nonempty, advance `first_id_`
while `first_id_ < active_.front()`, popping the front agent each step. -/
def update_active {A : Type} (new_agents : List Nat)
    (self : agents_private_status_fn A) : agents_private_status_fn A :=
  match new_agents with
  | [] => { self with active := [] }
  | first :: rest =>
    { first_id := self.first_id + (first - self.first_id)
      agents := self.agents.drop (first - self.first_id)
      active := first :: rest }

/-- `accessor.at`: `agents_[id - first_id_]` (named `at_` since `at` is
reserved).  The out-of-range case is an assertion failure in the source and
is unreachable for active ids; the model returns a dummy agent there. -/
def at_ {A : Type} [Inhabited A] (self : agents_private_status_fn A)
    (id : Nat) : A :=
  self.agents.getD (id - self.first_id) default

/-- `active_count`: `active_.size()`. -/
def active_count {A : Type} (self : agents_private_status_fn A) : Nat :=
  self.active.length

/-- The id the next `insert` will assign: `first_id_ + agents_.size()`. -/
def next_id {A : Type} (self : agents_private_status_fn A) : Nat :=
  self.first_id + self.agents.length

end agents_private_status_fn

/-! ## Simulation options and state -/

/-- `stop_criterion_t`. -/
inductive stop_criterion_t where
  | no_agents_t
  | time_threshold_t (t : Nat)

/-- `simulation_opts_t` restricted to the fields that influence the trade
trace, plus the abstract model `rng` of the mt19937 stream (see the module
comment).  `trade_callback`/`status_callback` are pure observers. -/
structure simulation_opts_t (R : Type) where
  factory : Nat → Int → List (any_agent R)
  time_window : Option Nat
  stop_criterion : stop_criterion_t
  seed : Option Int
  rng : Int → Nat → Int

/-- One bucket of the ledger deque: the unordered map from permit key
`(region, time)` to private record, as an association list. -/
abbrev bucket_t (R : Type) := List ((R × Nat) × permit_private_status_t)

/-- The full mutable state of `simulate`: the seed, the number of rng draws
made so far, the current tick `t0`, the agent registry, and the ledger
deque `data`. -/
structure sim_state (R : Type) where
  seed_val : Int
  draws : Nat
  t0 : Nat
  agents : agents_private_status_fn (any_agent R)
  data : List (bucket_t R)

/-- One rng draw: `rnd()`. -/
def draw {R : Type} (opts : simulation_opts_t R) (st : sim_state R) :
    Int × sim_state R :=
  (opts.rng st.seed_val st.draws, { st with draws := st.draws + 1 })

/-! ## Bucket (unordered map) operations -/

/-- Keyed lookup in a bucket (first matching entry). -/
def bfind {R : Type} [DecidableEq R] :
    bucket_t R → (R × Nat) → Option permit_private_status_t
  | [], _ => none
  | e :: rest, k => if e.1 = k then some e.2 else bfind rest k

/-- Keyed write to a bucket: overwrite the entry (all entries) for the key,
appending a new entry if the key is absent.  For buckets built by the
model, keys are unique, so this is exactly the `unordered_map` write. -/
def bset {R : Type} [DecidableEq R] :
    bucket_t R → (R × Nat) → permit_private_status_t → bucket_t R
  | [], k, r => [(k, r)]
  | e :: rest, k, r =>
    if e.1 = k then (k, r) :: bset rest k r else e :: bset rest k r

/-- `while (t - t0 >= data.size()) data.emplace_back();` — grow the deque
with empty buckets until it has at least `n` buckets. -/
def grow_to {R : Type} (data : List (bucket_t R)) (n : Nat) :
    List (bucket_t R) :=
  data ++ List.replicate (n - data.length) []

/-- The bucket at index `i` of the current ledger (empty if out of range). -/
def entries_at {R : Type} (st : sim_state R) (i : Nat) : bucket_t R :=
  st.data.getD i []

/-- The record currently stored for permit `(s, t)`, looked up at its home
bucket `data[t - t0]`, if any. -/
def rec_at {R : Type} [DecidableEq R] (st : sim_state R) (s : R)
    (t : Nat) : Option permit_private_status_t :=
  bfind (entries_at st (t - st.t0)) (s, t)

/-! ## The ledger accessor `book` -/

/-- The complement of the upper window test
`opts.time_window && t > t0 + 1 + *opts.time_window`. -/
def in_window {R : Type} (opts : simulation_opts_t R) (t0 t : Nat) :
    Bool :=
  match opts.time_window with
  | none => true
  | some w => decide (t ≤ t0 + 1 + w)

/-- Result of a `book` access: either the shared `out_of_limits` sentinel,
or (a reference to) the in-window record. -/
inductive book_res where
  | ool
  | entry (rec : permit_private_status_t)
deriving DecidableEq

/-- The `book` lambda of `simulate`, read side: returns the sentinel for
`t < t0` or an out-of-window `t`; otherwise grows the deque, and returns
the record stored for `(s, t)`, default-creating it if absent
(`operator[]`).  The state is returned because the access itself can grow
the deque and materialize the default record. -/
def book_get {R : Type} [DecidableEq R] (opts : simulation_opts_t R)
    (st : sim_state R) (s : R) (t : Nat) : book_res × sim_state R :=
  if t < st.t0 then (.ool, st)
  else if in_window opts st.t0 t then
    let data1 := grow_to st.data (t - st.t0 + 1)
    let b := data1.getD (t - st.t0) []
    match bfind b (s, t) with
    | some rec => (.entry rec, { st with data := data1 })
    | none =>
      (.entry default_record,
       { st with data := data1.set (t - st.t0) (bset b (s, t) default_record) })
  else (.ool, st)

/-- Write through a `book` reference: store `rec` as the record of
`(s, t)`.  Out-of-window writes would hit the sentinel in the source; every
write in `simulate` follows an in-window read of the same key at the same
tick, so that path is unreachable and the model makes it a no-op. -/
def book_set {R : Type} [DecidableEq R] (opts : simulation_opts_t R)
    (st : sim_state R) (s : R) (t : Nat)
    (rec : permit_private_status_t) : sim_state R :=
  if t < st.t0 then st
  else if in_window opts st.t0 t then
    let data1 := grow_to st.data (t - st.t0 + 1)
    { st with
      data := data1.set (t - st.t0) (bset (data1.getD (t - st.t0) []) (s, t) rec) }
  else st

/-! ## The bid closure and bid phase -/

/-- The `bid` lambda handed to `bid_phase`, applied to one
`bid(s, t, v)` call by agent `id`.  Returns the bool the closure returns,
the updated state, and the updated `bids` (pending winners) list. -/
def apply_bid {R : Type} [DecidableEq R] (opts : simulation_opts_t R)
    (id : Nat) (acc : sim_state R × List (R × Nat))
    (c : R × Nat × value_t) :
    Bool × sim_state R × List (R × Nat) :=
  let st := acc.1
  let bids := acc.2
  let s := c.1
  let t := c.2.1
  let v := c.2.2
  if t < st.t0 then (false, st, bids)
  else
    match book_get opts st s t with
    | (.ool, st1) => (false, st1, bids)
    | (.entry rec, st1) =>
      match rec.current with
      | .out_of_limits => (false, st1, bids)
      | .in_use _ => (false, st1, bids)
      | .on_sale status =>
        if status.min_value < v ∧ status.highest_bid < v then
          (true,
           book_set opts st1 s t
             { rec with
               current :=
                 .on_sale { status with highest_bidder := id, highest_bid := v } },
           if status.highest_bidder = no_owner then bids ++ [(s, t)] else bids)
        else (true, st1, bids)

/-- `apply_bid` with the returned bool dropped (the agent model does not
observe it), shaped for `List.foldl`. -/
def bid_step {R : Type} [DecidableEq R] (opts : simulation_opts_t R)
    (id : Nat) (acc : sim_state R × List (R × Nat))
    (c : R × Nat × value_t) : sim_state R × List (R × Nat) :=
  (apply_bid opts id acc c).2

/-- One active agent's turn in the bid phase: draw its seed, obtain its
bid calls, and run them through the `bid` closure in order. -/
def agent_bid {R : Type} [DecidableEq R] (opts : simulation_opts_t R)
    (acc : sim_state R × List (R × Nat)) (id : Nat) :
    sim_state R × List (R × Nat) :=
  let seed := (draw opts acc.1).1
  let st1 := (draw opts acc.1).2
  let calls := (st1.agents.at_ id).bid_phase st1.t0 seed
  calls.foldl (bid_step opts id) (st1, acc.2)

/-- The bid phase: iterate the active ids in order, starting from an empty
pending-winners list. -/
def bid_phase_all {R : Type} [DecidableEq R] (opts : simulation_opts_t R)
    (st : sim_state R) : sim_state R × List (R × Nat) :=
  st.agents.active.foldl (agent_bid opts) (st, [])

/-! ## Clearing (the "Trading" block) -/

/-- Clearing of one pending-winner key `(s, t)`: snapshot the `on_sale`
record, emit the trade info, overwrite the record with
`in_use{highest_bidder}` and append `(min_value, highest_bid)` to its
history.  The non-`on_sale` case is the `std::get` failure path,
unreachable in `simulate`. -/
def clear_one {R : Type} [DecidableEq R] (opts : simulation_opts_t R)
    (acc : sim_state R × List (trade_info_t R)) (k : R × Nat) :
    sim_state R × List (trade_info_t R) :=
  let st := acc.1
  let trades := acc.2
  let s := k.1
  let t := k.2
  match book_get opts st s t with
  | (.ool, st1) => (st1, trades)
  | (.entry rec, st1) =>
    match rec.current with
    | .on_sale status =>
      (book_set opts st1 s t
        { current := .in_use status.highest_bidder
          history := rec.history ++ [⟨status.min_value, status.highest_bid⟩] },
       trades ++ [⟨st1.t0, status.owner, status.highest_bidder, s, t, status.highest_bid⟩])
    | _ => (st1, trades)

/-! ## The ask closure, ask phase, and ask application -/

/-- The `ask` lambda handed to `ask_phase`, applied to one `ask(s, t, v)`
call by agent `id`: enqueue `(s, t, id, v)` iff the permit is in window and
owned by `id` (either variant). -/
def apply_ask {R : Type} [DecidableEq R] (opts : simulation_opts_t R)
    (id : Nat) (acc : sim_state R × List (R × Nat × Nat × value_t))
    (c : R × Nat × value_t) :
    Bool × sim_state R × List (R × Nat × Nat × value_t) :=
  let st := acc.1
  let asks := acc.2
  let s := c.1
  let t := c.2.1
  let v := c.2.2
  if t < st.t0 then (false, st, asks)
  else
    match book_get opts st s t with
    | (.ool, st1) => (false, st1, asks)
    | (.entry rec, st1) =>
      match rec.current with
      | .out_of_limits => (false, st1, asks)
      | .on_sale status =>
        if status.owner = id then (true, st1, asks ++ [(s, t, id, v)])
        else (false, st1, asks)
      | .in_use owner =>
        if owner = id then (true, st1, asks ++ [(s, t, id, v)])
        else (false, st1, asks)

/-- `apply_ask` shaped for `List.foldl`. -/
def ask_step {R : Type} [DecidableEq R] (opts : simulation_opts_t R)
    (id : Nat) (acc : sim_state R × List (R × Nat × Nat × value_t))
    (c : R × Nat × value_t) :
    sim_state R × List (R × Nat × Nat × value_t) :=
  (apply_ask opts id acc c).2

/-- One active agent's turn in the ask phase. -/
def agent_ask {R : Type} [DecidableEq R] (opts : simulation_opts_t R)
    (acc : sim_state R × List (R × Nat × Nat × value_t)) (id : Nat) :
    sim_state R × List (R × Nat × Nat × value_t) :=
  let seed := (draw opts acc.1).1
  let st1 := (draw opts acc.1).2
  let calls := (st1.agents.at_ id).ask_phase st1.t0 seed
  calls.foldl (ask_step opts id) (st1, acc.2)

/-- The ask phase: iterate the active ids in order. -/
def ask_phase_all {R : Type} [DecidableEq R] (opts : simulation_opts_t R)
    (st : sim_state R) : sim_state R × List (R × Nat × Nat × value_t) :=
  st.agents.active.foldl (agent_ask opts) (st, [])

/-- Application of one pending ask `(s, t, id, v)`:
`book(s, t).current = on_sale{.owner = id, .min_value = v};` — only the
`current` member is assigned; the `history` member of the record is left
untouched. -/
def ask_apply_one {R : Type} [DecidableEq R] (opts : simulation_opts_t R)
    (st : sim_state R) (a : R × Nat × Nat × value_t) : sim_state R :=
  let s := a.1
  let t := a.2.1
  let id := a.2.2.1
  let v := a.2.2.2
  match book_get opts st s t with
  | (.ool, st1) => st1
  | (.entry rec, st1) =>
    book_set opts st1 s t
      { current := .on_sale { owner := id, min_value := v }
        history := rec.history }

/-! ## Generation, culling, advance, and the tick -/

/-- Agent generation: one rng draw for the factory, then insert the new
agents in order. -/
def gen_step {R : Type} (opts : simulation_opts_t R) (st : sim_state R) :
    sim_state R :=
  let seed := (draw opts st).1
  let st1 := (draw opts st).2
  let new_agents := opts.factory st1.t0 seed
  { st1 with
    agents := new_agents.foldl
      (fun r a => agents_private_status_fn.insert a r) st1.agents }

/-- The stop/cull block: rebuild `keep_active` from the `stop` calls (one
rng draw per active agent) and apply `update_active`. -/
def cull_step {R : Type} (opts : simulation_opts_t R) (st : sim_state R) :
    sim_state R :=
  let p := st.agents.active.foldl
    (fun acc id =>
      let seed := (draw opts acc.1).1
      let st1 := (draw opts acc.1).2
      if (st1.agents.at_ id).stop st1.t0 seed then (st1, acc.2)
      else (st1, acc.2 ++ [id]))
    (st, ([] : List Nat))
  { p.1 with agents := agents_private_status_fn.update_active p.2 p.1.agents }

/-- End of tick: `if (data.size() > 0) data.pop_front(); ++t0;`. -/
def advance {R : Type} (st : sim_state R) : sim_state R :=
  { st with data := st.data.tail, t0 := st.t0 + 1 }

/-- One full iteration of the do-while body of `simulate`, returning the
trades emitted during clearing. -/
def tick {R : Type} [DecidableEq R] (opts : simulation_opts_t R)
    (st : sim_state R) : sim_state R × List (trade_info_t R) :=
  let st1 := gen_step opts st
  let bp := bid_phase_all opts st1
  let cl := bp.2.foldl (clear_one opts) (bp.1, [])
  let ap := ask_phase_all opts cl.1
  let st5 := ap.2.foldl (ask_apply_one opts) ap.1
  let st6 := cull_step opts st5
  (advance st6, cl.2)

/-- The tick prefix up to the end of clearing (generation, bid phase,
trading), used to observe the mid-tick state between clearing and the ask
phase.  Definitionally the `cl` intermediate of `tick`. -/
def bid_and_clear {R : Type} [DecidableEq R] (opts : simulation_opts_t R)
    (st : sim_state R) : sim_state R × List (trade_info_t R) :=
  let st1 := gen_step opts st
  let bp := bid_phase_all opts st1
  bp.2.foldl (clear_one opts) (bp.1, [])

/-- The stop criterion, evaluated after the tick. -/
def stop_cond {R : Type} (opts : simulation_opts_t R) (st : sim_state R) :
    Bool :=
  match opts.stop_criterion with
  | .no_agents_t => st.agents.active_count == 0
  | .time_threshold_t th => decide (th < st.t0)

/-- The do-while loop of `simulate`, with fuel bounding the number of
iterations: `none` means the loop did not terminate within `fuel` ticks;
`some (st, trades)` is the final state and the concatenated trade trace. -/
def run_sim {R : Type} [DecidableEq R] (opts : simulation_opts_t R) :
    Nat → sim_state R → Option (sim_state R × List (trade_info_t R))
  | 0, _ => none
  | n + 1, st =>
    let r := tick opts st
    if stop_cond opts r.1 then some r
    else
      match run_sim opts n r.1 with
      | none => none
      | some p => some (p.1, r.2 ++ p.2)

/-- The initial state of `simulate`:
`std::mt19937 rnd(opts.seed ? *opts.seed : std::random_device{}());` — the
`entropy` argument models the `random_device` draw used when no seed is
configured. -/
def init_state {R : Type} (opts : simulation_opts_t R) (entropy : Int) :
    sim_state R :=
  { seed_val := opts.seed.getD entropy
    draws := 0
    t0 := 0
    agents := { first_id := 0, agents := [], active := [] }
    data := [] }

/-- `simulate`, observed through its trade trace. -/
def simulate {R : Type} [DecidableEq R] (opts : simulation_opts_t R)
    (entropy : Int) (fuel : Nat) : Option (List (trade_info_t R)) :=
  (run_sim opts fuel (init_state opts entropy)).map (fun p => p.2)

/-! ## Invariant predicates used by the claims -/

/-- Claim C6's record invariant on the `current` variant: an `on_sale`
record either has no bidder or its bid is strictly above the floor. -/
def cur_ok : permit_current_t → Prop
  | .on_sale s => s.highest_bidder = no_owner ∨ s.min_value < s.highest_bid
  | .in_use _ => True
  | .out_of_limits => True

instance : (c : permit_current_t) → Decidable (cur_ok c)
  | .on_sale _ => inferInstanceAs (Decidable (_ ∨ _))
  | .in_use _ => inferInstanceAs (Decidable True)
  | .out_of_limits => inferInstanceAs (Decidable True)

/-- Claim C10's record invariant: an `on_sale` record carries no pending
bid at all. -/
def cur_clean : permit_current_t → Prop
  | .on_sale s => s.highest_bidder = no_owner ∧ s.highest_bid = 0
  | .in_use _ => True
  | .out_of_limits => True

instance : (c : permit_current_t) → Decidable (cur_clean c)
  | .on_sale _ => inferInstanceAs (Decidable (_ ∧ _))
  | .in_use _ => inferInstanceAs (Decidable True)
  | .out_of_limits => inferInstanceAs (Decidable True)

/-- Every record stored anywhere in the ledger satisfies `cur_ok`. -/
def ledger_ok {R : Type} (st : sim_state R) : Prop :=
  ∀ b ∈ st.data, ∀ e ∈ b, cur_ok e.2.current

/-- Every record stored anywhere in the ledger satisfies `cur_clean`. -/
def ledger_clean {R : Type} (st : sim_state R) : Prop :=
  ∀ b ∈ st.data, ∀ e ∈ b, cur_clean e.2.current

instance {R : Type} (st : sim_state R) : Decidable (ledger_ok st) :=
  inferInstanceAs (Decidable (∀ b ∈ st.data, ∀ e ∈ b, cur_ok e.2.current))

instance {R : Type} (st : sim_state R) : Decidable (ledger_clean st) :=
  inferInstanceAs (Decidable (∀ b ∈ st.data, ∀ e ∈ b, cur_clean e.2.current))

/-- Proof device for claim C10: during the bid phase, every stored record
that is not "clean" (a bidderless zero-bid `OnSale`, see `cur_clean`) has
its key in the pending-winners list, sits in its home bucket inside the
window, and is what a lookup of its key finds. -/
def bid_dirty_tracked {R : Type} [DecidableEq R] (opts : simulation_opts_t R)
    (st : sim_state R) (bids : List (R × Nat)) : Prop :=
  ∀ i, ∀ e ∈ entries_at st i, ¬ cur_clean e.2.current →
    (e.1 ∈ bids ∧ e.1.2 = i + st.t0 ∧
     in_window opts st.t0 e.1.2 = true ∧
     bfind (entries_at st i) e.1 = some e.2)

/-! ## Concrete scenarios (used by counterexamples and witnesses).
Regions are `Nat`; all agents are pure call schedules. -/

/-- A trivial model of the mt19937 stream (sufficient because no scenario
agent looks at its seed). -/
def sc_rng : Int → Nat → Int := fun _ _ => 0

/-- Scenario agent: at tick 0, bid 2 on permit `(0, 1)` and then ask it at
floor 1; stop immediately. -/
def sc_agent_a : any_agent Nat :=
  { bid_phase := fun t _ => if t = 0 then [(0, 1, 2)] else []
    ask_phase := fun t _ => if t = 0 then [(0, 1, 1)] else []
    stop := fun _ _ => true }

/-- Scenario agent: at tick 1, bid 2 on permit `(0, 1)`; stop immediately. -/
def sc_agent_b : any_agent Nat :=
  { bid_phase := fun t _ => if t = 1 then [(0, 1, 2)] else []
    ask_phase := fun _ _ => []
    stop := fun _ _ => true }

/-- Scenario agent: at tick 0, bid 1 on permit `(0, 1)`; stop immediately. -/
def sc_agent_c : any_agent Nat :=
  { bid_phase := fun t _ => if t = 0 then [(0, 1, 1)] else []
    ask_phase := fun _ _ => []
    stop := fun _ _ => true }

/-- Buy-then-ask-then-resell scenario (spec S3-like): agent 0 appears at
tick 0, buys `(0, 1)` and immediately asks it; agent 1 appears at tick 1
and re-buys it. -/
def sc_opts1 : simulation_opts_t Nat :=
  { factory := fun t _ => if t = 0 then [sc_agent_a] else if t = 1 then [sc_agent_b] else []
    time_window := none
    stop_criterion := .time_threshold_t 1
    seed := some 0
    rng := sc_rng }

/-- Tie-break scenario (spec S2): two agents both bid 1 on `(0, 1)` at
tick 0. -/
def sc_opts3 : simulation_opts_t Nat :=
  { factory := fun t _ => if t = 0 then [sc_agent_c, sc_agent_c] else []
    time_window := none
    stop_criterion := .no_agents_t
    seed := some 0
    rng := sc_rng }

/-- Empty-factory options with no time window. -/
def sc_noop_opts : simulation_opts_t Nat :=
  { factory := fun _ _ => []
    time_window := none
    stop_criterion := .no_agents_t
    seed := some 0
    rng := sc_rng }

/-- Empty-factory options with `time_window = 0` (spec S4). -/
def sc_w0_opts : simulation_opts_t Nat :=
  { factory := fun _ _ => []
    time_window := some 0
    stop_criterion := .no_agents_t
    seed := some 0
    rng := sc_rng }

/-- Empty-factory options with `TimeThreshold{2}` (spec S1's stop rule). -/
def sc_tt2_opts : simulation_opts_t Nat :=
  { factory := fun _ _ => []
    time_window := some 4
    stop_criterion := .time_threshold_t 2
    seed := some 1
    rng := sc_rng }

/-- A hand-built state holding one on-sale record with floor 5 for permit
`(0, 1)`, stored at its home bucket. -/
def sc_c8_state : sim_state Nat :=
  { seed_val := 0
    draws := 0
    t0 := 0
    agents := { first_id := 0, agents := [], active := [] }
    data := [[], [((0, 1),
      { current := .on_sale { owner := no_owner, min_value := 5, highest_bidder := no_owner, highest_bid := 0 }
        history := [] })]] }

/-! ## List and bucket lemmas -/

theorem foldl_pres {σ α : Type _} {P : σ → Prop} {f : σ → α → σ}
    (h : ∀ s a, P s → P (f s a)) :
    ∀ (l : List α) (s : σ), P s → P (l.foldl f s) := by
  intro l
  induction l with
  | nil => intro s hs; exact hs
  | cons a l ih => intro s hs; exact ih (f s a) (h s a hs)

theorem foldl_consume {σ α : Type _} {Q : σ → List α → Prop} {f : σ → α → σ}
    (h : ∀ s a rest, Q s (a :: rest) → Q (f s a) rest) :
    ∀ (l : List α) (s : σ), Q s l → Q (l.foldl f s) [] := by
  intro l
  induction l with
  | nil => intro s hs; exact hs
  | cons a l ih => intro s hs; exact ih (f s a) (h s a l hs)

theorem getD_ge_length {α : Type _} (d : α) :
    ∀ (l : List α) (i : Nat), l.length ≤ i → l.getD i d = d := by
  intro l
  induction l with
  | nil => intro i _; cases i <;> rfl
  | cons a l ih =>
    intro i h
    cases i with
    | zero => exact absurd h (by simp)
    | succ j => exact ih j (Nat.le_of_succ_le_succ h)

theorem getD_append_lt {α : Type _} (d : α) :
    ∀ (l l' : List α) (i : Nat), i < l.length → (l ++ l').getD i d = l.getD i d := by
  intro l
  induction l with
  | nil => intro l' i h; simp at h
  | cons a l ih =>
    intro l' i h
    cases i with
    | zero => rfl
    | succ j => exact ih l' j (Nat.lt_of_succ_lt_succ h)

theorem getD_replicate {α : Type _} (d : α) :
    ∀ (n i : Nat), (List.replicate n d).getD i d = d := by
  intro n
  induction n with
  | zero => intro i; cases i <;> rfl
  | succ m ih =>
    intro i
    cases i with
    | zero => rfl
    | succ j => exact ih j

theorem getD_set_self {α : Type _} (d : α) :
    ∀ (l : List α) (i : Nat) (b : α), i < l.length → (l.set i b).getD i d = b := by
  intro l
  induction l with
  | nil => intro i b h; simp at h
  | cons a l ih =>
    intro i b h
    cases i with
    | zero => rfl
    | succ j => exact ih j b (Nat.lt_of_succ_lt_succ h)

theorem getD_set_ne {α : Type _} (d : α) :
    ∀ (l : List α) (i j : Nat) (b : α), i ≠ j → (l.set i b).getD j d = l.getD j d := by
  intro l
  induction l with
  | nil => intro i j b _; cases i <;> rfl
  | cons a l ih =>
    intro i j b h
    cases i with
    | zero =>
      cases j with
      | zero => exact absurd rfl h
      | succ j' => rfl
    | succ i' =>
      cases j with
      | zero => rfl
      | succ j' => exact ih i' j' b (fun hc => h (by rw [hc]))

theorem mem_set {α : Type _} :
    ∀ (l : List α) (i : Nat) (b b' : α), b' ∈ l.set i b → b' = b ∨ b' ∈ l := by
  intro l
  induction l with
  | nil => intro i b b' h; simp at h
  | cons a l ih =>
    intro i b b' h
    cases i with
    | zero =>
      rcases List.mem_cons.1 h with h' | h'
      · exact Or.inl h'
      · exact Or.inr (List.mem_cons_of_mem a h')
    | succ j =>
      rcases List.mem_cons.1 h with h' | h'
      · exact Or.inr (h' ▸ List.mem_cons_self a l)
      · rcases ih j b b' h' with h'' | h''
        · exact Or.inl h''
        · exact Or.inr (List.mem_cons_of_mem a h'')

theorem bfind_bset_self {R : Type} [DecidableEq R] :
    ∀ (b : bucket_t R) (k : R × Nat) (r : permit_private_status_t),
      bfind (bset b k r) k = some r := by
  intro b
  induction b with
  | nil => intro k r; simp [bset, bfind]
  | cons e rest ih =>
    intro k r
    by_cases h : e.1 = k
    · simp [bset, h, bfind, ih]
    · simp [bset, h, bfind, ih]

theorem bfind_bset_ne {R : Type} [DecidableEq R] :
    ∀ (b : bucket_t R) (k k' : R × Nat) (r : permit_private_status_t),
      k' ≠ k → bfind (bset b k r) k' = bfind b k' := by
  intro b
  induction b with
  | nil =>
    intro k k' r h
    have hk : ¬ k = k' := fun hc => h (Eq.symm hc)
    simp [bset, bfind, hk]
  | cons e rest ih =>
    intro k k' r h
    have hk : ¬ k = k' := fun hc => h (Eq.symm hc)
    by_cases he : e.1 = k
    · have he' : ¬ e.1 = k' := fun hc => hk ((Eq.symm he).trans hc)
      simp [bset, bfind, he, he', hk, ih k k' r h]
    · by_cases he' : e.1 = k'
      · simp [bset, bfind, he, he', h]
      · simp [bset, bfind, he, he', ih k k' r h]

theorem mem_bset {R : Type} [DecidableEq R] :
    ∀ (b : bucket_t R) (k : R × Nat) (r : permit_private_status_t) e,
      e ∈ bset b k r → e = (k, r) ∨ (e ∈ b ∧ e.1 ≠ k) := by
  intro b
  induction b with
  | nil =>
    intro k r e h
    simp [bset] at h
    exact Or.inl h
  | cons f rest ih =>
    intro k r e h
    by_cases hf : f.1 = k
    · simp only [bset, if_pos hf] at h
      rcases List.mem_cons.1 h with h' | h'
      · exact Or.inl h'
      · rcases ih k r e h' with h'' | h''
        · exact Or.inl h''
        · exact Or.inr ⟨List.mem_cons_of_mem f h''.1, h''.2⟩
    · simp only [bset, if_neg hf] at h
      rcases List.mem_cons.1 h with h' | h'
      · exact Or.inr ⟨h' ▸ List.mem_cons_self f rest, h' ▸ hf⟩
      · rcases ih k r e h' with h'' | h''
        · exact Or.inl h''
        · exact Or.inr ⟨List.mem_cons_of_mem f h''.1, h''.2⟩

theorem bfind_mem {R : Type} [DecidableEq R] :
    ∀ (b : bucket_t R) (k : R × Nat) (r : permit_private_status_t),
      bfind b k = some r → (k, r) ∈ b := by
  intro b
  induction b with
  | nil => intro k r h; simp [bfind] at h
  | cons e rest ih =>
    intro k r h
    by_cases he : e.1 = k
    · simp only [bfind, if_pos he] at h
      cases h
      rcases e with ⟨ek, er⟩
      cases he
      exact List.mem_cons_self _ _
    · simp only [bfind, if_neg he] at h
      exact List.mem_cons_of_mem e (ih k r h)

theorem getD_append_ge {α : Type _} (d : α) :
    ∀ (l l' : List α) (i : Nat), l.length ≤ i →
      (l ++ l').getD i d = l'.getD (i - l.length) d := by
  intro l
  induction l with
  | nil => intro l' i _; rfl
  | cons a l ih =>
    intro l' i h
    cases i with
    | zero => exact absurd h (by simp)
    | succ j =>
      have hj := ih l' j (Nat.le_of_succ_le_succ h)
      simpa [Nat.succ_sub_succ] using hj

theorem getD_grow_to {R : Type} (data : List (bucket_t R)) (n i : Nat) :
    (grow_to data n).getD i [] = data.getD i [] := by
  by_cases h : i < data.length
  · exact getD_append_lt [] data _ i h
  · have h' := Nat.le_of_not_lt h
    rw [grow_to, getD_append_ge [] data _ i h', getD_replicate,
        getD_ge_length [] data i h']

theorem length_grow_to {R : Type} (data : List (bucket_t R)) (n : Nat) :
    (grow_to data n).length = max data.length n := by
  simp only [grow_to, List.length_append, List.length_replicate]
  omega

theorem mem_grow_to {R : Type} (data : List (bucket_t R)) (n : Nat)
    (b : bucket_t R) (h : b ∈ grow_to data n) : b ∈ data ∨ b = [] := by
  rw [grow_to] at h
  rcases List.mem_append.1 h with h' | h'
  · exact Or.inl h'
  · exact Or.inr (List.eq_of_mem_replicate h')

/-! ## Characterization of `book_get` and `book_set` -/

theorem book_get_ool_lt {R : Type} [DecidableEq R] (opts : simulation_opts_t R)
    (st : sim_state R) (s : R) (t : Nat) (h1 : t < st.t0) :
    book_get opts st s t = (.ool, st) := by
  rw [book_get, if_pos h1]

theorem book_get_ool_win {R : Type} [DecidableEq R] (opts : simulation_opts_t R)
    (st : sim_state R) (s : R) (t : Nat) (h1 : ¬ t < st.t0)
    (h2 : in_window opts st.t0 t = false) :
    book_get opts st s t = (.ool, st) := by
  rw [book_get, if_neg h1]
  simp [h2]

theorem book_get_found {R : Type} [DecidableEq R] (opts : simulation_opts_t R)
    (st : sim_state R) (s : R) (t : Nat) (rec : permit_private_status_t)
    (h1 : ¬ t < st.t0) (h2 : in_window opts st.t0 t = true)
    (hf : rec_at st s t = some rec) :
    book_get opts st s t =
      (.entry rec, { st with data := grow_to st.data (t - st.t0 + 1) }) := by
  rw [rec_at] at hf
  simp only [book_get, if_neg h1, h2, if_true,
    getD_grow_to st.data (t - st.t0 + 1) (t - st.t0)]
  rw [show st.data.getD (t - st.t0) [] = entries_at st (t - st.t0) from rfl, hf]

theorem book_get_not_found {R : Type} [DecidableEq R]
    (opts : simulation_opts_t R) (st : sim_state R) (s : R) (t : Nat)
    (h1 : ¬ t < st.t0) (h2 : in_window opts st.t0 t = true)
    (hf : rec_at st s t = none) :
    book_get opts st s t =
      (.entry default_record,
       { st with
         data := (grow_to st.data (t - st.t0 + 1)).set (t - st.t0)
           (bset (entries_at st (t - st.t0)) (s, t) default_record) }) := by
  rw [rec_at] at hf
  simp only [book_get, if_neg h1, h2, if_true,
    getD_grow_to st.data (t - st.t0 + 1) (t - st.t0)]
  rw [show st.data.getD (t - st.t0) [] = entries_at st (t - st.t0) from rfl, hf]

theorem book_set_eq {R : Type} [DecidableEq R] (opts : simulation_opts_t R)
    (st : sim_state R) (s : R) (t : Nat) (rec : permit_private_status_t)
    (h1 : ¬ t < st.t0) (h2 : in_window opts st.t0 t = true) :
    book_set opts st s t rec =
      { st with
        data := (grow_to st.data (t - st.t0 + 1)).set (t - st.t0)
          (bset (entries_at st (t - st.t0)) (s, t) rec) } := by
  simp only [book_set, if_neg h1, h2, if_true,
    getD_grow_to st.data (t - st.t0 + 1) (t - st.t0)]
  rfl

theorem getD_mem_of_lt {α : Type _} (d : α) :
    ∀ (l : List α) (i : Nat), i < l.length → l.getD i d ∈ l := by
  intro l
  induction l with
  | nil => intro i h; simp at h
  | cons a l ih =>
    intro i h
    cases i with
    | zero => exact List.mem_cons_self a l
    | succ j => exact List.mem_cons_of_mem a (ih j (Nat.lt_of_succ_lt_succ h))

theorem mem_of_entries_at {R : Type} (st : sim_state R) (i : Nat)
    (e : (R × Nat) × permit_private_status_t) (he : e ∈ entries_at st i) :
    ∃ b ∈ st.data, e ∈ b := by
  by_cases h : i < st.data.length
  · exact ⟨st.data.getD i [], getD_mem_of_lt [] st.data i h, he⟩
  · rw [entries_at, getD_ge_length [] st.data i (Nat.le_of_not_lt h)] at he
    simp at he

theorem entries_at_of_mem {R : Type} (st : sim_state R) (b : bucket_t R)
    (hb : b ∈ st.data) : ∃ i, entries_at st i = b := by
  rcases List.getElem_of_mem hb with ⟨i, hi, hget⟩
  refine ⟨i, ?_⟩
  rw [entries_at, List.getD_eq_getElem?_getD, List.getElem?_eq_getElem hi, hget]
  rfl

theorem book_get_frame {R : Type} [DecidableEq R] (opts : simulation_opts_t R)
    (st : sim_state R) (s : R) (t : Nat) :
    (book_get opts st s t).2.t0 = st.t0 ∧
    (book_get opts st s t).2.agents = st.agents ∧
    (book_get opts st s t).2.draws = st.draws ∧
    (book_get opts st s t).2.seed_val = st.seed_val := by
  by_cases h1 : t < st.t0
  · rw [book_get_ool_lt opts st s t h1]
    exact ⟨rfl, rfl, rfl, rfl⟩
  · cases h2 : in_window opts st.t0 t with
    | false =>
      rw [book_get_ool_win opts st s t h1 h2]
      exact ⟨rfl, rfl, rfl, rfl⟩
    | true =>
      cases hf : rec_at st s t with
      | some rec =>
        rw [book_get_found opts st s t rec h1 h2 hf]
        exact ⟨rfl, rfl, rfl, rfl⟩
      | none =>
        rw [book_get_not_found opts st s t h1 h2 hf]
        exact ⟨rfl, rfl, rfl, rfl⟩

theorem book_set_frame {R : Type} [DecidableEq R] (opts : simulation_opts_t R)
    (st : sim_state R) (s : R) (t : Nat) (rec : permit_private_status_t) :
    (book_set opts st s t rec).t0 = st.t0 ∧
    (book_set opts st s t rec).agents = st.agents ∧
    (book_set opts st s t rec).draws = st.draws ∧
    (book_set opts st s t rec).seed_val = st.seed_val := by
  rw [book_set]
  by_cases h1 : t < st.t0
  · rw [if_pos h1]; exact ⟨rfl, rfl, rfl, rfl⟩
  · rw [if_neg h1]
    cases h2 : in_window opts st.t0 t with
    | false => simp [h2]
    | true => simp [h2]

theorem entries_book_set {R : Type} [DecidableEq R] (opts : simulation_opts_t R)
    (st : sim_state R) (s : R) (t : Nat) (rec : permit_private_status_t)
    (h1 : ¬ t < st.t0) (h2 : in_window opts st.t0 t = true) (i : Nat) :
    entries_at (book_set opts st s t rec) i =
      if i = t - st.t0 then bset (entries_at st (t - st.t0)) (s, t) rec
      else entries_at st i := by
  rw [book_set_eq opts st s t rec h1 h2]
  by_cases hi : i = t - st.t0
  · rw [if_pos hi, hi]
    show ((grow_to st.data (t - st.t0 + 1)).set (t - st.t0) _).getD (t - st.t0) [] = _
    rw [getD_set_self]
    rw [length_grow_to]
    omega
  · rw [if_neg hi]
    show ((grow_to st.data (t - st.t0 + 1)).set (t - st.t0) _).getD i [] = _
    rw [getD_set_ne [] _ _ _ _ (fun hc => hi hc.symm), getD_grow_to]
    rfl

theorem entries_book_get {R : Type} [DecidableEq R] (opts : simulation_opts_t R)
    (st : sim_state R) (s : R) (t : Nat) (i : Nat) :
    entries_at (book_get opts st s t).2 i = entries_at st i ∨
      (¬ t < st.t0 ∧ in_window opts st.t0 t = true ∧ rec_at st s t = none ∧
       i = t - st.t0 ∧
       entries_at (book_get opts st s t).2 i =
         bset (entries_at st (t - st.t0)) (s, t) default_record) := by
  by_cases h1 : t < st.t0
  · rw [book_get_ool_lt opts st s t h1]; exact Or.inl rfl
  · cases h2 : in_window opts st.t0 t with
    | false => rw [book_get_ool_win opts st s t h1 h2]; exact Or.inl rfl
    | true =>
      cases hf : rec_at st s t with
      | some rec =>
        rw [book_get_found opts st s t rec h1 h2 hf]
        exact Or.inl (by rw [entries_at]; exact getD_grow_to st.data _ i)
      | none =>
        rw [book_get_not_found opts st s t h1 h2 hf]
        by_cases hi : i = t - st.t0
        · refine Or.inr ⟨h1, rfl, rfl, hi, ?_⟩
          rw [hi]
          show ((grow_to st.data (t - st.t0 + 1)).set (t - st.t0) _).getD (t - st.t0) [] = _
          rw [getD_set_self]
          rw [length_grow_to]
          omega
        · refine Or.inl ?_
          show ((grow_to st.data (t - st.t0 + 1)).set (t - st.t0) _).getD i [] = _
          rw [getD_set_ne [] _ _ _ _ (fun hc => hi hc.symm), getD_grow_to]
          rfl

theorem rec_at_congr {R : Type} [DecidableEq R] (st st' : sim_state R)
    (s : R) (t : Nat) (ht : st'.t0 = st.t0)
    (he : entries_at st' (t - st.t0) = entries_at st (t - st.t0)) :
    rec_at st' s t = rec_at st s t := by
  rw [rec_at, rec_at, ht, he]

theorem rec_at_book_get_self {R : Type} [DecidableEq R]
    (opts : simulation_opts_t R) (st : sim_state R) (s : R) (t : Nat)
    (h1 : ¬ t < st.t0) (h2 : in_window opts st.t0 t = true) :
    rec_at (book_get opts st s t).2 s t =
      some ((rec_at st s t).getD default_record) := by
  have ht := (book_get_frame opts st s t).1
  cases hf : rec_at st s t with
  | some rec =>
    rw [book_get_found opts st s t rec h1 h2 hf]
    rw [book_get_found opts st s t rec h1 h2 hf] at ht
    rw [rec_at, ht]
    show bfind ((grow_to st.data (t - st.t0 + 1)).getD (t - st.t0) []) (s, t) = _
    rw [getD_grow_to]
    exact hf
  | none =>
    rw [book_get_not_found opts st s t h1 h2 hf]
    rw [book_get_not_found opts st s t h1 h2 hf] at ht
    rw [rec_at, ht]
    show bfind (((grow_to st.data (t - st.t0 + 1)).set (t - st.t0) _).getD (t - st.t0) []) (s, t) = _
    rw [getD_set_self]
    · exact bfind_bset_self _ _ _
    · rw [length_grow_to]; omega

theorem rec_at_book_get_other {R : Type} [DecidableEq R]
    (opts : simulation_opts_t R) (st : sim_state R) (s : R) (t : Nat)
    (s' : R) (t' : Nat) (hk : (s', t') ≠ (s, t)) :
    rec_at (book_get opts st s t).2 s' t' = rec_at st s' t' := by
  have ht := (book_get_frame opts st s t).1
  rcases entries_book_get opts st s t (t' - st.t0) with h | ⟨_, _, _, hi, h⟩
  · rw [rec_at, ht, h]; rfl
  · rw [rec_at, ht, h, bfind_bset_ne _ _ _ _ hk, ← hi]; rfl

theorem rec_at_book_set_self {R : Type} [DecidableEq R]
    (opts : simulation_opts_t R) (st : sim_state R) (s : R) (t : Nat)
    (rec : permit_private_status_t)
    (h1 : ¬ t < st.t0) (h2 : in_window opts st.t0 t = true) :
    rec_at (book_set opts st s t rec) s t = some rec := by
  have ht := (book_set_frame opts st s t rec).1
  rw [rec_at, ht, entries_book_set opts st s t rec h1 h2, if_pos rfl,
    bfind_bset_self]

theorem rec_at_book_set_other {R : Type} [DecidableEq R]
    (opts : simulation_opts_t R) (st : sim_state R) (s : R) (t : Nat)
    (rec : permit_private_status_t) (s' : R) (t' : Nat)
    (hk : (s', t') ≠ (s, t)) :
    rec_at (book_set opts st s t rec) s' t' = rec_at st s' t' := by
  have ht := (book_set_frame opts st s t rec).1
  by_cases h1 : t < st.t0
  · rw [book_set, if_pos h1]
  · cases h2 : in_window opts st.t0 t with
    | false => rw [book_set, if_neg h1]; simp [h2]
    | true =>
      have h := entries_book_set opts st s t rec h1 h2 (t' - st.t0)
      rw [rec_at, ht, h]
      by_cases hi : t' - st.t0 = t - st.t0
      · rw [if_pos hi, bfind_bset_ne _ _ _ _ hk, ← hi]; rfl
      · rw [if_neg hi]; rfl

/-! ## Case analyses of the closures -/

theorem book_get_fst_entry {R : Type} [DecidableEq R]
    (opts : simulation_opts_t R) (st : sim_state R) (s : R) (t : Nat)
    (h1 : ¬ t < st.t0) (h2 : in_window opts st.t0 t = true) :
    book_get opts st s t =
      (.entry ((rec_at st s t).getD default_record), (book_get opts st s t).2) := by
  cases hf : rec_at st s t with
  | some rec =>
    rw [book_get_found opts st s t rec h1 h2 hf]
    rfl
  | none =>
    rw [book_get_not_found opts st s t h1 h2 hf]
    rfl

theorem apply_bid_spec {R : Type} [DecidableEq R] (opts : simulation_opts_t R)
    (id : Nat) (st : sim_state R) (bids : List (R × Nat)) (s : R)
    (t : Nat) (v : value_t) :
    (t < st.t0 ∧ apply_bid opts id (st, bids) (s, t, v) = (false, st, bids)) ∨
    (¬ t < st.t0 ∧ in_window opts st.t0 t = false ∧
      apply_bid opts id (st, bids) (s, t, v) = (false, st, bids)) ∨
    (¬ t < st.t0 ∧ in_window opts st.t0 t = true ∧
      (∀ status, ((rec_at st s t).getD default_record).current ≠ .on_sale status) ∧
      apply_bid opts id (st, bids) (s, t, v) =
        (false, (book_get opts st s t).2, bids)) ∨
    (∃ status, ¬ t < st.t0 ∧ in_window opts st.t0 t = true ∧
      ((rec_at st s t).getD default_record).current = .on_sale status ∧
      ¬ (status.min_value < v ∧ status.highest_bid < v) ∧
      apply_bid opts id (st, bids) (s, t, v) =
        (true, (book_get opts st s t).2, bids)) ∨
    (∃ status, ¬ t < st.t0 ∧ in_window opts st.t0 t = true ∧
      ((rec_at st s t).getD default_record).current = .on_sale status ∧
      (status.min_value < v ∧ status.highest_bid < v) ∧
      apply_bid opts id (st, bids) (s, t, v) =
        (true,
         book_set opts (book_get opts st s t).2 s t
           { (rec_at st s t).getD default_record with
             current := .on_sale { status with highest_bidder := id, highest_bid := v } },
         if status.highest_bidder = no_owner then bids ++ [(s, t)] else bids)) := by
  by_cases h0 : t < st.t0
  · exact Or.inl ⟨h0, by simp [apply_bid, h0]⟩
  · cases h2 : in_window opts st.t0 t with
    | false =>
      refine Or.inr (Or.inl ⟨h0, rfl, ?_⟩)
      simp only [apply_bid, if_neg h0]
      rw [book_get_ool_win opts st s t h0 h2]
    | true =>
      generalize hrec : (rec_at st s t).getD default_record = rec
      have hbg := book_get_fst_entry opts st s t h0 h2
      rw [hrec] at hbg
      obtain ⟨cur, hist⟩ := rec
      cases cur with
      | out_of_limits =>
        refine Or.inr (Or.inr (Or.inl ⟨h0, rfl, ?_, ?_⟩))
        · exact fun status h => permit_current_t.noConfusion h
        · simp only [apply_bid, if_neg h0]
          rw [hbg]
      | in_use owner =>
        refine Or.inr (Or.inr (Or.inl ⟨h0, rfl, ?_, ?_⟩))
        · exact fun status h => permit_current_t.noConfusion h
        · simp only [apply_bid, if_neg h0]
          rw [hbg]
      | on_sale status =>
        by_cases hg : status.min_value < v ∧ status.highest_bid < v
        · refine Or.inr (Or.inr (Or.inr (Or.inr ⟨status, h0, rfl, rfl, hg, ?_⟩)))
          simp only [apply_bid, if_neg h0]
          rw [hbg]
          simp only [if_pos hg]
        · refine Or.inr (Or.inr (Or.inr (Or.inl ⟨status, h0, rfl, rfl, hg, ?_⟩)))
          simp only [apply_bid, if_neg h0]
          rw [hbg]
          simp only [if_neg hg]

theorem apply_ask_spec {R : Type} [DecidableEq R] (opts : simulation_opts_t R)
    (id : Nat) (st : sim_state R)
    (asks : List (R × Nat × Nat × value_t)) (c : R × Nat × value_t) :
    ((apply_ask opts id (st, asks) c).2.1 = st ∧
      (apply_ask opts id (st, asks) c).2.2 = asks) ∨
    ((apply_ask opts id (st, asks) c).2.1 = (book_get opts st c.1 c.2.1).2 ∧
      ((apply_ask opts id (st, asks) c).2.2 = asks ∨
       (apply_ask opts id (st, asks) c).2.2 = asks ++ [(c.1, c.2.1, id, c.2.2)])) := by
  obtain ⟨s, t, v⟩ := c
  by_cases h0 : t < st.t0
  · exact Or.inl ⟨by simp [apply_ask, h0], by simp [apply_ask, h0]⟩
  · cases h2 : in_window opts st.t0 t with
    | false =>
      have hbg := book_get_ool_win opts st s t h0 h2
      refine Or.inl ⟨?_, ?_⟩ <;>
        · simp only [apply_ask, if_neg h0]
          rw [hbg]
    | true =>
      generalize hrec : (rec_at st s t).getD default_record = rec
      have hbg := book_get_fst_entry opts st s t h0 h2
      rw [hrec] at hbg
      obtain ⟨cur, hist⟩ := rec
      cases cur with
      | out_of_limits =>
        refine Or.inr ⟨?_, Or.inl ?_⟩ <;>
          · simp only [apply_ask, if_neg h0]
            rw [hbg]
      | on_sale status =>
        by_cases ho : status.owner = id
        · refine Or.inr ⟨?_, Or.inr ?_⟩ <;>
            · simp only [apply_ask, if_neg h0]
              rw [hbg]
              simp only [if_pos ho]
        · refine Or.inr ⟨?_, Or.inl ?_⟩ <;>
            · simp only [apply_ask, if_neg h0]
              rw [hbg]
              simp only [if_neg ho]
      | in_use owner =>
        by_cases ho : owner = id
        · refine Or.inr ⟨?_, Or.inr ?_⟩ <;>
            · simp only [apply_ask, if_neg h0]
              rw [hbg]
              simp only [if_pos ho]
        · refine Or.inr ⟨?_, Or.inl ?_⟩ <;>
            · simp only [apply_ask, if_neg h0]
              rw [hbg]
              simp only [if_neg ho]

theorem clear_one_spec {R : Type} [DecidableEq R] (opts : simulation_opts_t R)
    (st : sim_state R) (trades : List (trade_info_t R)) (s : R) (t : Nat) :
    ((t < st.t0 ∨ in_window opts st.t0 t = false) ∧
      clear_one opts (st, trades) (s, t) = (st, trades)) ∨
    (¬ t < st.t0 ∧ in_window opts st.t0 t = true ∧
      (∀ status, ((rec_at st s t).getD default_record).current ≠ .on_sale status) ∧
      clear_one opts (st, trades) (s, t) = ((book_get opts st s t).2, trades)) ∨
    (∃ status, ¬ t < st.t0 ∧ in_window opts st.t0 t = true ∧
      ((rec_at st s t).getD default_record).current = .on_sale status ∧
      clear_one opts (st, trades) (s, t) =
        (book_set opts (book_get opts st s t).2 s t
           { current := .in_use status.highest_bidder
             history := ((rec_at st s t).getD default_record).history ++
               [⟨status.min_value, status.highest_bid⟩] },
         trades ++ [⟨st.t0, status.owner, status.highest_bidder, s, t, status.highest_bid⟩])) := by
  by_cases h0 : t < st.t0
  · refine Or.inl ⟨Or.inl h0, ?_⟩
    simp only [clear_one]
    rw [book_get_ool_lt opts st s t h0]
  · cases h2 : in_window opts st.t0 t with
    | false =>
      refine Or.inl ⟨Or.inr rfl, ?_⟩
      simp only [clear_one]
      rw [book_get_ool_win opts st s t h0 h2]
    | true =>
      generalize hrec : (rec_at st s t).getD default_record = rec
      have hbg := book_get_fst_entry opts st s t h0 h2
      have hfr := (book_get_frame opts st s t).1
      rw [hrec] at hbg
      obtain ⟨cur, hist⟩ := rec
      cases cur with
      | out_of_limits =>
        refine Or.inr (Or.inl ⟨h0, rfl, ?_, ?_⟩)
        · exact fun status h => permit_current_t.noConfusion h
        · simp only [clear_one]
          rw [hbg]
      | in_use owner =>
        refine Or.inr (Or.inl ⟨h0, rfl, ?_, ?_⟩)
        · exact fun status h => permit_current_t.noConfusion h
        · simp only [clear_one]
          rw [hbg]
      | on_sale status =>
        refine Or.inr (Or.inr ⟨status, h0, rfl, rfl, ?_⟩)
        simp only [clear_one]
        rw [hbg]
        rw [← hfr]

theorem ask_apply_one_spec {R : Type} [DecidableEq R]
    (opts : simulation_opts_t R) (st : sim_state R) (s : R) (t : Nat)
    (id : Nat) (v : value_t) :
    ((t < st.t0 ∨ in_window opts st.t0 t = false) ∧
      ask_apply_one opts st (s, t, id, v) = st) ∨
    (¬ t < st.t0 ∧ in_window opts st.t0 t = true ∧
      ask_apply_one opts st (s, t, id, v) =
        book_set opts (book_get opts st s t).2 s t
          { current := .on_sale { owner := id, min_value := v }
            history := ((rec_at st s t).getD default_record).history }) := by
  by_cases h0 : t < st.t0
  · refine Or.inl ⟨Or.inl h0, ?_⟩
    simp only [ask_apply_one]
    rw [book_get_ool_lt opts st s t h0]
  · cases h2 : in_window opts st.t0 t with
    | false =>
      refine Or.inl ⟨Or.inr rfl, ?_⟩
      simp only [ask_apply_one]
      rw [book_get_ool_win opts st s t h0 h2]
    | true =>
      refine Or.inr ⟨h0, rfl, ?_⟩
      generalize hrec : (rec_at st s t).getD default_record = rec
      have hbg := book_get_fst_entry opts st s t h0 h2
      rw [hrec] at hbg
      obtain ⟨cur, hist⟩ := rec
      simp only [ask_apply_one]
      rw [hbg]

/-! ## Frame lemmas: which state components each step preserves -/

theorem bid_step_frame {R : Type} [DecidableEq R] (opts : simulation_opts_t R)
    (id : Nat) (acc : sim_state R × List (R × Nat))
    (c : R × Nat × value_t) :
    (bid_step opts id acc c).1.t0 = acc.1.t0 ∧
    (bid_step opts id acc c).1.agents = acc.1.agents := by
  obtain ⟨st, bids⟩ := acc
  obtain ⟨s, t, v⟩ := c
  have hg := book_get_frame opts st s t
  rcases apply_bid_spec opts id st bids s t v with ⟨_, he⟩ | ⟨_, _, he⟩ |
    ⟨_, _, _, he⟩ | ⟨status, _, _, _, _, he⟩ | ⟨status, _, _, _, _, he⟩
  · rw [bid_step, he]; exact ⟨rfl, rfl⟩
  · rw [bid_step, he]; exact ⟨rfl, rfl⟩
  · rw [bid_step, he]; exact ⟨hg.1, hg.2.1⟩
  · rw [bid_step, he]; exact ⟨hg.1, hg.2.1⟩
  · rw [bid_step, he]
    have hs := book_set_frame opts (book_get opts st s t).2 s t
      { (rec_at st s t).getD default_record with
        current := .on_sale { status with highest_bidder := id, highest_bid := v } }
    exact ⟨hs.1.trans hg.1, hs.2.1.trans hg.2.1⟩

theorem ask_step_frame {R : Type} [DecidableEq R] (opts : simulation_opts_t R)
    (id : Nat) (acc : sim_state R × List (R × Nat × Nat × value_t))
    (c : R × Nat × value_t) :
    (ask_step opts id acc c).1.t0 = acc.1.t0 ∧
    (ask_step opts id acc c).1.agents = acc.1.agents := by
  obtain ⟨st, asks⟩ := acc
  obtain ⟨s, t, v⟩ := c
  have hg := book_get_frame opts st s t
  rcases apply_ask_spec opts id st asks (s, t, v) with ⟨he, _⟩ | ⟨he, _⟩
  · rw [ask_step, he]; exact ⟨rfl, rfl⟩
  · rw [ask_step, he]; exact ⟨hg.1, hg.2.1⟩

theorem clear_one_frame {R : Type} [DecidableEq R] (opts : simulation_opts_t R)
    (acc : sim_state R × List (trade_info_t R)) (k : R × Nat) :
    (clear_one opts acc k).1.t0 = acc.1.t0 ∧
    (clear_one opts acc k).1.agents = acc.1.agents := by
  obtain ⟨st, trades⟩ := acc
  obtain ⟨s, t⟩ := k
  have hg := book_get_frame opts st s t
  rcases clear_one_spec opts st trades s t with ⟨_, he⟩ | ⟨_, _, _, he⟩ |
    ⟨status, _, _, _, he⟩
  · rw [he]; exact ⟨rfl, rfl⟩
  · rw [he]; exact ⟨hg.1, hg.2.1⟩
  · rw [he]
    have hs := book_set_frame opts (book_get opts st s t).2 s t
      { current := .in_use status.highest_bidder
        history := ((rec_at st s t).getD default_record).history ++
          [⟨status.min_value, status.highest_bid⟩] }
    exact ⟨hs.1.trans hg.1, hs.2.1.trans hg.2.1⟩

theorem ask_apply_one_frame {R : Type} [DecidableEq R]
    (opts : simulation_opts_t R) (st : sim_state R)
    (a : R × Nat × Nat × value_t) :
    (ask_apply_one opts st a).t0 = st.t0 ∧
    (ask_apply_one opts st a).agents = st.agents := by
  obtain ⟨s, t, id, v⟩ := a
  have hg := book_get_frame opts st s t
  rcases ask_apply_one_spec opts st s t id v with ⟨_, he⟩ | ⟨_, _, he⟩
  · rw [he]; exact ⟨rfl, rfl⟩
  · rw [he]
    have hs := book_set_frame opts (book_get opts st s t).2 s t
      { current := .on_sale { owner := id, min_value := v }
        history := ((rec_at st s t).getD default_record).history }
    exact ⟨hs.1.trans hg.1, hs.2.1.trans hg.2.1⟩

theorem agent_bid_frame {R : Type} [DecidableEq R] (opts : simulation_opts_t R)
    (acc : sim_state R × List (R × Nat)) (id : Nat) :
    (agent_bid opts acc id).1.t0 = acc.1.t0 ∧
    (agent_bid opts acc id).1.agents = acc.1.agents := by
  have step : ∀ (p : sim_state R × List (R × Nat)) (c : R × Nat × value_t),
      (p.1.t0 = acc.1.t0 ∧ p.1.agents = acc.1.agents) →
      ((bid_step opts id p c).1.t0 = acc.1.t0 ∧
       (bid_step opts id p c).1.agents = acc.1.agents) := by
    intro p c hp
    have hf := bid_step_frame opts id p c
    exact ⟨hf.1.trans hp.1, hf.2.trans hp.2⟩
  exact foldl_pres step _ _ ⟨rfl, rfl⟩

theorem bid_phase_all_frame {R : Type} [DecidableEq R]
    (opts : simulation_opts_t R) (st : sim_state R) :
    (bid_phase_all opts st).1.t0 = st.t0 ∧
    (bid_phase_all opts st).1.agents = st.agents := by
  have step : ∀ (p : sim_state R × List (R × Nat)) (id : Nat),
      (p.1.t0 = st.t0 ∧ p.1.agents = st.agents) →
      ((agent_bid opts p id).1.t0 = st.t0 ∧
       (agent_bid opts p id).1.agents = st.agents) := by
    intro p id hp
    have hf := agent_bid_frame opts p id
    exact ⟨hf.1.trans hp.1, hf.2.trans hp.2⟩
  exact foldl_pres step _ _ ⟨rfl, rfl⟩

theorem agent_ask_frame {R : Type} [DecidableEq R] (opts : simulation_opts_t R)
    (acc : sim_state R × List (R × Nat × Nat × value_t)) (id : Nat) :
    (agent_ask opts acc id).1.t0 = acc.1.t0 ∧
    (agent_ask opts acc id).1.agents = acc.1.agents := by
  have step : ∀ (p : sim_state R × List (R × Nat × Nat × value_t))
      (c : R × Nat × value_t),
      (p.1.t0 = acc.1.t0 ∧ p.1.agents = acc.1.agents) →
      ((ask_step opts id p c).1.t0 = acc.1.t0 ∧
       (ask_step opts id p c).1.agents = acc.1.agents) := by
    intro p c hp
    have hf := ask_step_frame opts id p c
    exact ⟨hf.1.trans hp.1, hf.2.trans hp.2⟩
  exact foldl_pres step _ _ ⟨rfl, rfl⟩

theorem ask_phase_all_frame {R : Type} [DecidableEq R]
    (opts : simulation_opts_t R) (st : sim_state R) :
    (ask_phase_all opts st).1.t0 = st.t0 ∧
    (ask_phase_all opts st).1.agents = st.agents := by
  have step : ∀ (p : sim_state R × List (R × Nat × Nat × value_t))
      (id : Nat),
      (p.1.t0 = st.t0 ∧ p.1.agents = st.agents) →
      ((agent_ask opts p id).1.t0 = st.t0 ∧
       (agent_ask opts p id).1.agents = st.agents) := by
    intro p id hp
    have hf := agent_ask_frame opts p id
    exact ⟨hf.1.trans hp.1, hf.2.trans hp.2⟩
  exact foldl_pres step _ _ ⟨rfl, rfl⟩

theorem clear_fold_frame {R : Type} [DecidableEq R]
    (opts : simulation_opts_t R) (bids : List (R × Nat))
    (acc : sim_state R × List (trade_info_t R)) :
    (bids.foldl (clear_one opts) acc).1.t0 = acc.1.t0 ∧
    (bids.foldl (clear_one opts) acc).1.agents = acc.1.agents := by
  have step : ∀ (p : sim_state R × List (trade_info_t R)) (k : R × Nat),
      (p.1.t0 = acc.1.t0 ∧ p.1.agents = acc.1.agents) →
      ((clear_one opts p k).1.t0 = acc.1.t0 ∧
       (clear_one opts p k).1.agents = acc.1.agents) := by
    intro p k hp
    have hf := clear_one_frame opts p k
    exact ⟨hf.1.trans hp.1, hf.2.trans hp.2⟩
  exact foldl_pres step _ _ ⟨rfl, rfl⟩

theorem ask_apply_fold_frame {R : Type} [DecidableEq R]
    (opts : simulation_opts_t R) (asks : List (R × Nat × Nat × value_t))
    (st : sim_state R) :
    (asks.foldl (ask_apply_one opts) st).t0 = st.t0 ∧
    (asks.foldl (ask_apply_one opts) st).agents = st.agents := by
  have step : ∀ (p : sim_state R) (a : R × Nat × Nat × value_t),
      (p.t0 = st.t0 ∧ p.agents = st.agents) →
      ((ask_apply_one opts p a).t0 = st.t0 ∧
       (ask_apply_one opts p a).agents = st.agents) := by
    intro p a hp
    have hf := ask_apply_one_frame opts p a
    exact ⟨hf.1.trans hp.1, hf.2.trans hp.2⟩
  exact foldl_pres step _ _ ⟨rfl, rfl⟩

theorem cull_step_frame {R : Type} (opts : simulation_opts_t R)
    (st : sim_state R) :
    (cull_step opts st).t0 = st.t0 ∧ (cull_step opts st).data = st.data := by
  have step : ∀ (p : sim_state R × List Nat) (id : Nat),
      (p.1.t0 = st.t0 ∧ p.1.data = st.data) →
      (((fun (acc : sim_state R × List Nat) (id : Nat) =>
          if ((draw opts acc.1).2.agents.at_ id).stop (draw opts acc.1).2.t0
              (draw opts acc.1).1
          then ((draw opts acc.1).2, acc.2)
          else ((draw opts acc.1).2, acc.2 ++ [id])) p id).1.t0 = st.t0 ∧
       ((fun (acc : sim_state R × List Nat) (id : Nat) =>
          if ((draw opts acc.1).2.agents.at_ id).stop (draw opts acc.1).2.t0
              (draw opts acc.1).1
          then ((draw opts acc.1).2, acc.2)
          else ((draw opts acc.1).2, acc.2 ++ [id])) p id).1.data = st.data) := by
    intro p id hp
    by_cases hstop : ((draw opts p.1).2.agents.at_ id).stop (draw opts p.1).2.t0
        (draw opts p.1).1
    · simp only [hstop, if_true]
      exact hp
    · simp only [hstop, if_false]
      exact hp
  have h := foldl_pres step st.agents.active (st, []) ⟨rfl, rfl⟩
  exact h

theorem tick_t0 {R : Type} [DecidableEq R] (opts : simulation_opts_t R)
    (st : sim_state R) : (tick opts st).1.t0 = st.t0 + 1 := by
  rw [tick]
  set st1 := gen_step opts st with hst1
  set bp := bid_phase_all opts st1 with hbp
  set cl := bp.2.foldl (clear_one opts) (bp.1, []) with hcl
  set ap := ask_phase_all opts cl.1 with hap
  set st5 := ap.2.foldl (ask_apply_one opts) ap.1 with hst5
  set st6 := cull_step opts st5 with hst6
  show st6.t0 + 1 = st.t0 + 1
  have h6 : st6.t0 = st5.t0 := (cull_step_frame opts st5).1
  have h5 : st5.t0 = ap.1.t0 := (ask_apply_fold_frame opts ap.2 ap.1).1
  have h4 : ap.1.t0 = cl.1.t0 := (ask_phase_all_frame opts cl.1).1
  have h3 : cl.1.t0 = bp.1.t0 := (clear_fold_frame opts bp.2 (bp.1, [])).1
  have h2 : bp.1.t0 = st1.t0 := (bid_phase_all_frame opts st1).1
  have h1 : st1.t0 = st.t0 := rfl
  rw [h6, h5, h4, h3, h2, h1]

/-! ## Termination under a time threshold -/

theorem stop_cond_tt {R : Type} (opts : simulation_opts_t R) (T : Nat)
    (st : sim_state R) (h : opts.stop_criterion = .time_threshold_t T) :
    stop_cond opts st = decide (T < st.t0) := by
  rw [stop_cond, h]

theorem run_sim_none_of_le {R : Type} [DecidableEq R]
    (opts : simulation_opts_t R) (T : Nat)
    (h : opts.stop_criterion = .time_threshold_t T) :
    ∀ (n : Nat) (st : sim_state R), st.t0 + n ≤ T →
      run_sim opts n st = none := by
  intro n
  induction n with
  | zero => intro st _; rfl
  | succ m ih =>
    intro st hle
    have ht : (tick opts st).1.t0 = st.t0 + 1 := tick_t0 opts st
    have hlt : ¬ T < st.t0 + 1 := by omega
    have hs : stop_cond opts (tick opts st).1 = false := by
      rw [stop_cond_tt opts T _ h, ht]
      simp [hlt]
    have hrec : run_sim opts m (tick opts st).1 = none := by
      apply ih
      rw [ht]
      omega
    simp only [run_sim]
    rw [hs]
    simp [hrec]

theorem run_sim_some_of_eq {R : Type} [DecidableEq R]
    (opts : simulation_opts_t R) (T : Nat)
    (h : opts.stop_criterion = .time_threshold_t T) :
    ∀ (n : Nat) (st : sim_state R), 1 ≤ n → st.t0 + n = T + 1 →
      ∃ stf trades, run_sim opts n st = some (stf, trades) ∧
        stf.t0 = T + 1 := by
  intro n
  induction n with
  | zero => intro st h1 _; omega
  | succ m ih =>
    intro st _ heq
    have ht : (tick opts st).1.t0 = st.t0 + 1 := tick_t0 opts st
    cases Nat.eq_zero_or_pos m with
    | inl hm0 =>
      subst hm0
      have hlt : T < st.t0 + 1 := by omega
      have hs : stop_cond opts (tick opts st).1 = true := by
        rw [stop_cond_tt opts T _ h, ht]
        simp [hlt]
      refine ⟨(tick opts st).1, (tick opts st).2, ?_, ?_⟩
      · simp only [run_sim]
        rw [hs]
        simp
      · rw [ht]; omega
    | inr hm1 =>
      have hlt : ¬ T < st.t0 + 1 := by omega
      have hs : stop_cond opts (tick opts st).1 = false := by
        rw [stop_cond_tt opts T _ h, ht]
        simp [hlt]
      obtain ⟨stf, trades, hrun, hstf⟩ := ih (tick opts st).1 hm1 (by rw [ht]; omega)
      refine ⟨stf, (tick opts st).2 ++ trades, ?_, hstf⟩
      simp only [run_sim]
      rw [hs]
      simp [hrun]

/-! ## The window predicate, unfolded -/

theorem in_window_false_iff {R : Type} (opts : simulation_opts_t R)
    (t0 t : Nat) :
    in_window opts t0 t = false ↔
      ∃ W, opts.time_window = some W ∧ t0 + 1 + W < t := by
  rw [in_window]
  cases htw : opts.time_window with
  | none =>
    constructor
    · intro h; cases h
    · intro ⟨W, hW, _⟩; cases hW
  | some w =>
    constructor
    · intro h
      refine ⟨w, rfl, ?_⟩
      have := of_decide_eq_false h
      omega
    · intro ⟨W, hW, hlt⟩
      cases hW
      simp only [decide_eq_false_iff_not]
      omega

/-- C2: the specification claims that a bid issued during the bid phase on a
permit at exactly the current tick (`t = t0`) returns false — the current
tick being read-only for bidding.  The code's bid closure only rejects
`t < t0` and the ledger's lower bound is also `t < t0`, so a bid at `t = t0`
on an in-window permit is accepted.  Evaluating the code at the failing
input (tick 0, fresh permit `(0, 0)`, bidder 0, value 1): the closure
returns `true`, the book records `highest_bidder = 0, highest_bid = 1`, and
the permit joins the pending-winners list.  This matches the source's own
`XXX` comment ("they should be prohibited to bid for" the current tick),
which the code does not enforce. -/
theorem C2_bid_at_current_tick_is_accepted :
    (apply_bid sc_noop_opts 0 (init_state sc_noop_opts 0, []) (0, 0, 1)).1 = true ∧
    rec_at (apply_bid sc_noop_opts 0 (init_state sc_noop_opts 0, []) (0, 0, 1)).2.1 0 0 =
      some { current := .on_sale
               { owner := no_owner, min_value := 0, highest_bidder := 0, highest_bid := 1 }
             history := [] } ∧
    (apply_bid sc_noop_opts 0 (init_state sc_noop_opts 0, []) (0, 0, 1)).2.2 = [(0, 0)] := by
  refine ⟨?_, ?_, ?_⟩ <;> decide

/-- C4: the ledger accessor returns the `OutOfLimits` sentinel iff `t < t0`,
or the time window is set and `t > t0 + 1 + time_window`; consequently with
`time_window = W` any bid on a permit at time `t0 + 1 + W + 1` returns
false. -/
theorem C4_book_out_of_limits_iff {R : Type} [DecidableEq R]
    (opts : simulation_opts_t R) (st : sim_state R) (s : R) (t : Nat) :
    ((book_get opts st s t).1 = .ool ↔
      (t < st.t0 ∨ ∃ W, opts.time_window = some W ∧ t > st.t0 + 1 + W)) ∧
    (∀ (W id : Nat) (bids : List (R × Nat)) (v : value_t),
      opts.time_window = some W →
      (apply_bid opts id (st, bids) (s, st.t0 + 1 + W + 1, v)).1 = false) := by
  constructor
  · by_cases h0 : t < st.t0
    · rw [book_get_ool_lt opts st s t h0]
      exact ⟨fun _ => Or.inl h0, fun _ => rfl⟩
    · cases h2 : in_window opts st.t0 t with
      | false =>
        rw [book_get_ool_win opts st s t h0 h2]
        refine ⟨fun _ => ?_, fun _ => rfl⟩
        obtain ⟨W, hW, hlt⟩ := (in_window_false_iff opts st.t0 t).1 h2
        exact Or.inr ⟨W, hW, hlt⟩
      | true =>
        rw [book_get_fst_entry opts st s t h0 h2]
        constructor
        · intro hcon
          cases hcon
        · intro hcon
          rcases hcon with hlt | ⟨W, hW, hgt⟩
          · exact absurd hlt h0
          · have : in_window opts st.t0 t = false :=
              (in_window_false_iff opts st.t0 t).2 ⟨W, hW, hgt⟩
            rw [h2] at this
            cases this
  · intro W id bids v hW
    have h0 : ¬ st.t0 + 1 + W + 1 < st.t0 := by omega
    have h2 : in_window opts st.t0 (st.t0 + 1 + W + 1) = false :=
      (in_window_false_iff opts st.t0 _).2 ⟨W, hW, by omega⟩
    rcases apply_bid_spec opts id st bids s (st.t0 + 1 + W + 1) v with
      ⟨hlt, _⟩ | ⟨_, _, he⟩ | ⟨_, hwin, _, _⟩ | ⟨status, _, hwin, _, _, _⟩ |
      ⟨status, _, hwin, _, _, _⟩
    · exact absurd hlt h0
    · rw [he]
    · rw [hwin] at h2; cases h2
    · rw [hwin] at h2; cases h2
    · rw [hwin] at h2; cases h2

/-- C4 witness: with `time_window = 0` and the initial state, the sentinel
characterization holds at `t = 2` and a bid on `(0, t0 + 2)` returns
false (spec S4). -/
theorem C4_book_out_of_limits_iff_witness :
    (((book_get sc_w0_opts (init_state sc_w0_opts 0) 0 2).1 = .ool ↔
       (2 < (init_state sc_w0_opts 0).t0 ∨
        ∃ W, sc_w0_opts.time_window = some W ∧
          2 > (init_state sc_w0_opts 0).t0 + 1 + W)) ∧
     (apply_bid sc_w0_opts 0 (init_state sc_w0_opts 0, [])
        (0, (init_state sc_w0_opts 0).t0 + 1 + 0 + 1, 1)).1 = false) :=
  ⟨(C4_book_out_of_limits_iff sc_w0_opts (init_state sc_w0_opts 0) 0 2).1,
   (C4_book_out_of_limits_iff sc_w0_opts (init_state sc_w0_opts 0) 0 2).2
     0 0 [] 1 rfl⟩

/-- C8: for an in-window permit whose record is `OnSale`, a bid with
`v ≤ min_value` or `v ≤ highest_bid` leaves the stored record and the
pending-winners list unchanged, yet the bid closure still returns `true`.
(The state may still grow empty buckets on the access, as in the source;
the stored record itself is unchanged.) -/
theorem C8_low_bid_is_noop_but_true {R : Type} [DecidableEq R]
    (opts : simulation_opts_t R) (st : sim_state R) (s : R) (t : Nat)
    (rec : permit_private_status_t) (status : permit_private_status.on_sale)
    (id : Nat) (bids : List (R × Nat)) (v : value_t)
    (h0 : ¬ t < st.t0) (h2 : in_window opts st.t0 t = true)
    (hrec : rec_at st s t = some rec) (hcur : rec.current = .on_sale status)
    (hv : v ≤ status.min_value ∨ v ≤ status.highest_bid) :
    apply_bid opts id (st, bids) (s, t, v) = (true, (book_get opts st s t).2, bids) ∧
    rec_at (apply_bid opts id (st, bids) (s, t, v)).2.1 s t = some rec := by
  have hgetd : (rec_at st s t).getD default_record = rec := by rw [hrec]; rfl
  have hng : ¬ (status.min_value < v ∧ status.highest_bid < v) := by
    rcases hv with hv | hv
    · exact fun hg => absurd hg.1 (not_lt.2 hv)
    · exact fun hg => absurd hg.2 (not_lt.2 hv)
  rcases apply_bid_spec opts id st bids s t v with
    ⟨hlt, _⟩ | ⟨_, hwin, _⟩ | ⟨_, _, hns, _⟩ | ⟨status', _, _, hcur', hng', he⟩ |
    ⟨status', _, _, hcur', hg', he⟩
  · exact absurd hlt h0
  · rw [hwin] at h2; cases h2
  · rw [hgetd] at hns
    exact absurd hcur (hns status)
  · refine ⟨he, ?_⟩
    rw [he]
    show rec_at (book_get opts st s t).2 s t = some rec
    rw [rec_at_book_get_self opts st s t h0 h2, hgetd]
  · rw [hgetd, hcur] at hcur'
    cases hcur'
    exact absurd hg' hng

/-- C8 witness: a concrete state holding `(0, 1)` on sale with floor 5; a
bid of 3 returns true and changes neither the record nor the
pending-winners list. -/
theorem C8_low_bid_is_noop_but_true_witness :
    apply_bid sc_noop_opts 7 (sc_c8_state, []) (0, 1, 3) =
      (true, (book_get sc_noop_opts sc_c8_state 0 1).2, []) ∧
    rec_at (apply_bid sc_noop_opts 7 (sc_c8_state, []) (0, 1, 3)).2.1 0 1 =
      some { current := .on_sale
               { owner := no_owner, min_value := 5, highest_bidder := no_owner, highest_bid := 0 }
             history := [] } :=
  C8_low_bid_is_noop_but_true sc_noop_opts sc_c8_state 0 1
    { current := .on_sale
        { owner := no_owner, min_value := 5, highest_bidder := no_owner, highest_bid := 0 }
      history := [] }
    { owner := no_owner, min_value := 5, highest_bidder := no_owner, highest_bid := 0 }
    7 [] 3 (by decide) (by decide) (by decide) (by decide) (by norm_num)

/-- C3: tie-breaking is strict.  For an in-window `OnSale` record, a bid
mutates the book iff `v > min_value` and `v > highest_bid` (so a tying bid
does not displace the incumbent), and a mutating bid overwrites
`highest_bidder` with the caller (last writer wins).  Concretely (spec S2):
with two agents that both bid 1 on permit `(0, 1)` at tick 0, agent 0 wins
the trade and ends up owning the permit. -/
theorem C3_strict_tiebreak :
    (∀ (R : Type) (inst : DecidableEq R) (opts : simulation_opts_t R)
       (st : sim_state R) (s : R) (t : Nat) (rec : permit_private_status_t)
       (status : permit_private_status.on_sale) (id : Nat)
       (bids : List (R × Nat)) (v : value_t),
       ¬ t < st.t0 → in_window opts st.t0 t = true →
       rec_at st s t = some rec → rec.current = .on_sale status →
       ((status.min_value < v ∧ status.highest_bid < v →
          rec_at (apply_bid opts id (st, bids) (s, t, v)).2.1 s t =
            some { rec with
              current := .on_sale { status with highest_bidder := id, highest_bid := v } }) ∧
        (¬ (status.min_value < v ∧ status.highest_bid < v) →
          rec_at (apply_bid opts id (st, bids) (s, t, v)).2.1 s t = some rec))) ∧
    ((tick sc_opts3 (init_state sc_opts3 0)).2 =
       [{ transaction_time := 0, from_agent := no_owner, to_agent := 0,
          location := 0, time := 1, value := 1 }] ∧
     rec_at (tick sc_opts3 (init_state sc_opts3 0)).1 0 1 =
       some { current := .in_use 0, history := [⟨0, 1⟩] }) := by
  constructor
  · intro R inst opts st s t rec status id bids v h0 h2 hrec hcur
    have hgetd : (rec_at st s t).getD default_record = rec := by rw [hrec]; rfl
    rcases apply_bid_spec opts id st bids s t v with
      ⟨hlt, _⟩ | ⟨_, hwin, _⟩ | ⟨_, _, hns, _⟩ | ⟨status', _, _, hcur', hng', he⟩ |
      ⟨status', _, _, hcur', hg', he⟩
    · exact absurd hlt h0
    · rw [hwin] at h2; cases h2
    · rw [hgetd] at hns
      exact absurd hcur (hns status)
    · rw [hgetd, hcur] at hcur'
      cases hcur'
      constructor
      · intro hg; exact absurd hg hng'
      · intro _
        rw [he]
        show rec_at (book_get opts st s t).2 s t = some rec
        rw [rec_at_book_get_self opts st s t h0 h2, hgetd]
    · rw [hgetd, hcur] at hcur'
      cases hcur'
      constructor
      · intro _
        rw [he]
        show rec_at (book_set opts (book_get opts st s t).2 s t _ ) s t = _
        have ht := (book_get_frame opts st s t).1
        rw [rec_at_book_set_self opts (book_get opts st s t).2 s t _
          (by rw [ht]; exact h0) (by rw [ht]; exact h2), hgetd]
      · intro hng; exact absurd hg' hng
  · exact ⟨by decide, by decide⟩

/-- C3 witness: the general tie-break statement applied at the concrete
post-first-bid book of the S2 scenario — the incumbent (bidder 0 at value
1) is not displaced by agent 1's tying bid of 1. -/
theorem C3_strict_tiebreak_witness :
    rec_at (apply_bid sc_noop_opts 1
        ((apply_bid sc_noop_opts 0 (init_state sc_noop_opts 0, []) (0, 1, 1)).2.1,
         (apply_bid sc_noop_opts 0 (init_state sc_noop_opts 0, []) (0, 1, 1)).2.2)
        (0, 1, 1)).2.1 0 1 =
      some { current := .on_sale
               { owner := no_owner, min_value := 0, highest_bidder := 0, highest_bid := 1 }
             history := [] } := by
  have h := (C3_strict_tiebreak.1 Nat inferInstance sc_noop_opts
    (apply_bid sc_noop_opts 0 (init_state sc_noop_opts 0, []) (0, 1, 1)).2.1
    0 1
    { current := .on_sale
        { owner := no_owner, min_value := 0, highest_bidder := 0, highest_bid := 1 }
      history := [] }
    { owner := no_owner, min_value := 0, highest_bidder := 0, highest_bid := 1 }
    1
    (apply_bid sc_noop_opts 0 (init_state sc_noop_opts 0, []) (0, 1, 1)).2.2
    1 (by decide) (by decide) (by decide) (by decide)).2 (by decide)
  exact h

/-- C1 counterexample: the claim says ask application overwrites the
history field with the empty sequence, so that a permit bought at tick `t0`
and asked at the same tick is `OnSale` with empty history at tick end.  In
the source the ask application assigns only the `current` member
(`book(s, t).current = on_sale{...}`), leaving `history` untouched.  In the
concrete buy-then-ask scenario, at the end of tick 0 the permit `(0, 1)` is
`OnSale{owner = 0, min_value = 1, no bidder}` but its history is the
nonempty `[(0, 2)]`. -/
theorem C1_history_reset_counterexample :
    ∃ rec, rec_at (tick sc_opts1 (init_state sc_opts1 0)).1 0 1 = some rec ∧
      rec.current = .on_sale
        { owner := 0, min_value := 1, highest_bidder := no_owner, highest_bid := 0 } ∧
      rec.history ≠ [] :=
  ⟨{ current := .on_sale
       { owner := 0, min_value := 1, highest_bidder := no_owner, highest_bid := 0 }
     history := [⟨0, 2⟩] },
   by decide, by decide, by decide⟩

/-- C1 (amended): for every entry `(region, t, id, v)` in `pending_asks`,
ask application sets the record's `current` to
`OnSale{owner = id, min_value = v, no bidder}` while **preserving** the
history field.  Consequently a permit bought at tick `t0` and asked at the
same tick is `OnSale` with exactly one history entry at tick end, and
re-buying it on the next tick appends a second entry. -/
theorem C1_ask_sets_on_sale_preserving_history :
    (∀ (R : Type) (inst : DecidableEq R) (opts : simulation_opts_t R)
       (st : sim_state R) (s : R) (t id : Nat) (v : value_t),
       ¬ t < st.t0 → in_window opts st.t0 t = true →
       rec_at (ask_apply_one opts st (s, t, id, v)) s t =
         some { current := .on_sale
                  { owner := id, min_value := v, highest_bidder := no_owner, highest_bid := 0 }
                history := ((rec_at st s t).getD default_record).history }) ∧
    (rec_at (tick sc_opts1 (init_state sc_opts1 0)).1 0 1 =
       some { current := .on_sale
                { owner := 0, min_value := 1, highest_bidder := no_owner, highest_bid := 0 }
              history := [⟨0, 2⟩] } ∧
     rec_at (bid_and_clear sc_opts1 (tick sc_opts1 (init_state sc_opts1 0)).1).1 0 1 =
       some { current := .in_use 1, history := [⟨0, 2⟩, ⟨1, 2⟩] }) := by
  constructor
  · intro R inst opts st s t id v h0 h2
    rcases ask_apply_one_spec opts st s t id v with ⟨hcase, _⟩ | ⟨_, _, he⟩
    · rcases hcase with hlt | hwin
      · exact absurd hlt h0
      · rw [hwin] at h2; cases h2
    · rw [he]
      have ht := (book_get_frame opts st s t).1
      rw [rec_at_book_set_self opts (book_get opts st s t).2 s t _
        (by rw [ht]; exact h0) (by rw [ht]; exact h2)]
  · exact ⟨by decide, by decide⟩

/-- C1 witness: applying the amended statement at the end-of-tick-0 state
of the concrete scenario — asking `(0, 1)` at floor 7 for owner 5 keeps the
one-entry history. -/
theorem C1_ask_sets_on_sale_preserving_history_witness :
    rec_at (ask_apply_one sc_opts1 (tick sc_opts1 (init_state sc_opts1 0)).1 (0, 1, 5, 7)) 0 1 =
      some { current := .on_sale
               { owner := 5, min_value := 7, highest_bidder := no_owner, highest_bid := 0 }
             history := ((rec_at (tick sc_opts1 (init_state sc_opts1 0)).1 0 1).getD
               default_record).history } :=
  C1_ask_sets_on_sale_preserving_history.1 Nat inferInstance sc_opts1
    (tick sc_opts1 (init_state sc_opts1 0)).1 0 1 5 7 (by decide) (by decide)

/-- C9: with stop criterion `TimeThreshold{T}` the simulation terminates,
executing exactly the ticks `t0 = 0 .. T`: with fewer than `T + 1`
iterations of fuel the do-while loop has not yet stopped, and with exactly
`T + 1` it exits with `t0 = T + 1` (the stop test runs after the tick's
advance step). -/
theorem C9_time_threshold_terminates {R : Type} [DecidableEq R]
    (opts : simulation_opts_t R) (T : Nat) (entropy : Int)
    (h : opts.stop_criterion = .time_threshold_t T) :
    (∀ n, n < T + 1 → run_sim opts n (init_state opts entropy) = none) ∧
    ∃ stf trades, run_sim opts (T + 1) (init_state opts entropy) =
      some (stf, trades) ∧ stf.t0 = T + 1 := by
  have h0 : (init_state opts entropy).t0 = 0 := rfl
  constructor
  · intro n hn
    apply run_sim_none_of_le opts T h n
    rw [h0]
    omega
  · apply run_sim_some_of_eq opts T h (T + 1)
    · omega
    · rw [h0]
      omega

/-- C9 witness: with `TimeThreshold{2}` (spec S1's stop rule), the loop
needs exactly 3 ticks and exits at `t0 = 3`. -/
theorem C9_time_threshold_terminates_witness :
    (∀ n, n < 2 + 1 → run_sim sc_tt2_opts n (init_state sc_tt2_opts 0) = none) ∧
    ∃ stf trades, run_sim sc_tt2_opts (2 + 1) (init_state sc_tt2_opts 0) =
      some (stf, trades) ∧ stf.t0 = 2 + 1 :=
  C9_time_threshold_terminates sc_tt2_opts 2 0 rfl

/-- C5: determinism.  The trade trace of `simulate` is a function of the
seed, the factory, the time window, the stop criterion, and the rng stream
alone: two runs that agree on those (with the seed actually configured)
produce identical trade sequences, independently of the `random_device`
entropy the source would fall back to without a seed. -/
theorem C5_determinism {R : Type} [DecidableEq R]
    (o1 o2 : simulation_opts_t R) (e1 e2 : Int) (s : Int) (fuel : Nat)
    (hs1 : o1.seed = some s) (hs2 : o2.seed = some s)
    (hf : o1.factory = o2.factory) (hw : o1.time_window = o2.time_window)
    (hc : o1.stop_criterion = o2.stop_criterion) (hr : o1.rng = o2.rng) :
    (run_sim o1 fuel (init_state o1 e1)).map (fun p => p.2) =
      (run_sim o2 fuel (init_state o2 e2)).map (fun p => p.2) := by
  have ho : o1 = o2 := by
    cases o1
    cases o2
    simp only at hs1 hs2 hf hw hc hr
    rw [hf, hw, hc, hr, hs1, hs2]
  subst ho
  have hinit : init_state o1 e1 = init_state o1 e2 := by
    rw [init_state, init_state, hs1]
    rfl
  rw [hinit]

/-- C5 witness: two runs of the threshold scenario with different entropy
inputs (37 and 42) but the same configured seed give the same trace. -/
theorem C5_determinism_witness :
    (run_sim sc_tt2_opts 3 (init_state sc_tt2_opts 37)).map (fun p => p.2) =
      (run_sim sc_tt2_opts 3 (init_state sc_tt2_opts 42)).map (fun p => p.2) :=
  C5_determinism sc_tt2_opts sc_tt2_opts 37 42 1 3 rfl rfl rfl rfl rfl rfl

/-- C7: agent ids are assigned monotonically increasing on insertion and are
never reused across culling and prefix eviction: `insert` assigns exactly
`first_id + store_size` (appending it to `active`) and bumps the next id by
one; `update_active` preserves the next id (advancing `first_id` exactly as
many slots as it pops) whenever the new active list only names already
assigned ids.  Concretely (spec S6): after agents 0 and 1 are inserted,
agent 0 is culled (`update_active [1]` evicts the prefix slot), and a new
agent is inserted, the new agent receives id 2. -/
theorem C7_ids_monotone_never_reused :
    (∀ (A : Type) (r : agents_private_status_fn A) (a : A),
       (agents_private_status_fn.insert a r).active = r.active ++ [r.next_id] ∧
       (agents_private_status_fn.insert a r).next_id = r.next_id + 1) ∧
    (∀ (A : Type) (r : agents_private_status_fn A) (new_agents : List Nat),
       (∀ i ∈ new_agents, i < r.next_id) →
       (agents_private_status_fn.update_active new_agents r).next_id = r.next_id ∧
       r.first_id ≤ (agents_private_status_fn.update_active new_agents r).first_id) ∧
    ((agents_private_status_fn.insert ()
        (agents_private_status_fn.update_active [1]
          (agents_private_status_fn.insert ()
            (agents_private_status_fn.insert ()
              (⟨0, [], []⟩ : agents_private_status_fn Unit))))).active = [1, 2]) := by
  refine ⟨?_, ?_, by decide⟩
  · intro A r a
    constructor
    · rfl
    · show r.first_id + (r.agents ++ [a]).length = r.first_id + r.agents.length + 1
      rw [List.length_append, List.length_singleton, Nat.add_assoc]
  · intro A r new_agents hvalid
    cases new_agents with
    | nil => exact ⟨rfl, Nat.le_refl _⟩
    | cons first rest =>
      have hfirst : first < r.first_id + r.agents.length :=
        hvalid first (List.mem_cons_self first rest)
      constructor
      · show r.first_id + (first - r.first_id) +
          (r.agents.drop (first - r.first_id)).length =
          r.first_id + r.agents.length
        rw [List.length_drop]
        omega
      · show r.first_id ≤ r.first_id + (first - r.first_id)
        omega

/-- C7 witness: the general statements applied to the concrete registry of
scenario S6 (two agents, the first culled). -/
theorem C7_ids_monotone_never_reused_witness :
    ((agents_private_status_fn.insert ((), ())
        (⟨3, [((), ())], [3]⟩ : agents_private_status_fn (Unit × Unit))).active =
      [3, 4] ∧
     (agents_private_status_fn.insert ((), ())
        (⟨3, [((), ())], [3]⟩ : agents_private_status_fn (Unit × Unit))).next_id = 5) ∧
    ((agents_private_status_fn.update_active [1]
        (⟨0, [(), ()], [0, 1]⟩ : agents_private_status_fn Unit)).next_id = 2 ∧
     (0 : Nat) ≤ (agents_private_status_fn.update_active [1]
        (⟨0, [(), ()], [0, 1]⟩ : agents_private_status_fn Unit)).first_id) := by
  constructor
  · have h := C7_ids_monotone_never_reused.1 (Unit × Unit)
      (⟨3, [((), ())], [3]⟩ : agents_private_status_fn (Unit × Unit)) ((), ())
    exact ⟨h.1, h.2⟩
  · have h := C7_ids_monotone_never_reused.2.1 Unit
      (⟨0, [(), ()], [0, 1]⟩ : agents_private_status_fn Unit) [1]
      (by decide)
    exact ⟨h.1, h.2⟩

/-! ## Entry-wise preservation through the book operations -/

theorem data_all_book_get {R : Type} [DecidableEq R]
    (opts : simulation_opts_t R) (st : sim_state R) (s : R) (t : Nat)
    (P : (R × Nat) × permit_private_status_t → Prop)
    (h : ∀ b ∈ st.data, ∀ e ∈ b, P e) (hd : P ((s, t), default_record)) :
    ∀ b ∈ (book_get opts st s t).2.data, ∀ e ∈ b, P e := by
  by_cases h1 : t < st.t0
  · rw [book_get_ool_lt opts st s t h1]; exact h
  · cases h2 : in_window opts st.t0 t with
    | false => rw [book_get_ool_win opts st s t h1 h2]; exact h
    | true =>
      cases hf : rec_at st s t with
      | some rec =>
        rw [book_get_found opts st s t rec h1 h2 hf]
        intro b hb e he
        rcases mem_grow_to st.data _ b hb with hb' | hb'
        · exact h b hb' e he
        · rw [hb'] at he; cases he
      | none =>
        rw [book_get_not_found opts st s t h1 h2 hf]
        intro b hb e he
        rcases mem_set _ _ _ _ hb with hb' | hb'
        · rw [hb'] at he
          rcases mem_bset _ _ _ _ he with he' | ⟨he', _⟩
          · rw [he']; exact hd
          · obtain ⟨b', hb'', he''⟩ := mem_of_entries_at st (t - st.t0) e he'
            exact h b' hb'' e he''
        · rcases mem_grow_to st.data _ b hb' with hb'' | hb''
          · exact h b hb'' e he
          · rw [hb''] at he; cases he

theorem data_all_book_set {R : Type} [DecidableEq R]
    (opts : simulation_opts_t R) (st : sim_state R) (s : R) (t : Nat)
    (rec : permit_private_status_t)
    (P : (R × Nat) × permit_private_status_t → Prop)
    (h : ∀ b ∈ st.data, ∀ e ∈ b, P e) (hr : P ((s, t), rec)) :
    ∀ b ∈ (book_set opts st s t rec).data, ∀ e ∈ b, P e := by
  rw [book_set]
  by_cases h1 : t < st.t0
  · rw [if_pos h1]; exact h
  · rw [if_neg h1]
    cases h2 : in_window opts st.t0 t with
    | false => simp only [h2, Bool.false_eq_true, if_false]; exact h
    | true =>
      simp only [h2, if_true]
      intro b hb e he
      rcases mem_set _ _ _ _ hb with hb' | hb'
      · rw [hb'] at he
        have hgd : (grow_to st.data (t - st.t0 + 1)).getD (t - st.t0) [] =
            entries_at st (t - st.t0) := getD_grow_to st.data _ _
        rw [hgd] at he
        rcases mem_bset _ _ _ _ he with he' | ⟨he', _⟩
        · rw [he']; exact hr
        · obtain ⟨b', hb'', he''⟩ := mem_of_entries_at st (t - st.t0) e he'
          exact h b' hb'' e he''
      · rcases mem_grow_to st.data _ b hb' with hb'' | hb''
        · exact h b hb'' e he
        · rw [hb''] at he; cases he

/-! ## Preservation of the C6 record invariant -/

theorem cur_ok_default : cur_ok default_record.current := Or.inl rfl

theorem ledger_ok_bid_step {R : Type} [DecidableEq R]
    (opts : simulation_opts_t R) (id : Nat)
    (acc : sim_state R × List (R × Nat)) (c : R × Nat × value_t)
    (h : ledger_ok acc.1) : ledger_ok (bid_step opts id acc c).1 := by
  obtain ⟨st, bids⟩ := acc
  obtain ⟨s, t, v⟩ := c
  rcases apply_bid_spec opts id st bids s t v with
    ⟨_, he⟩ | ⟨_, _, he⟩ | ⟨_, _, _, he⟩ | ⟨status, _, _, _, _, he⟩ |
    ⟨status, _, _, _, hg, he⟩
  · rw [bid_step, he]; exact h
  · rw [bid_step, he]; exact h
  · rw [bid_step, he]
    exact data_all_book_get opts st s t _ h cur_ok_default
  · rw [bid_step, he]
    exact data_all_book_get opts st s t _ h cur_ok_default
  · rw [bid_step, he]
    show ledger_ok (book_set opts (book_get opts st s t).2 s t _)
    apply data_all_book_set
    · exact data_all_book_get opts st s t _ h cur_ok_default
    · exact Or.inr hg.1

theorem ledger_ok_ask_step {R : Type} [DecidableEq R]
    (opts : simulation_opts_t R) (id : Nat)
    (acc : sim_state R × List (R × Nat × Nat × value_t))
    (c : R × Nat × value_t) (h : ledger_ok acc.1) :
    ledger_ok (ask_step opts id acc c).1 := by
  obtain ⟨st, asks⟩ := acc
  obtain ⟨s, t, v⟩ := c
  rcases apply_ask_spec opts id st asks (s, t, v) with ⟨he, _⟩ | ⟨he, _⟩
  · rw [ask_step, he]; exact h
  · rw [ask_step, he]
    exact data_all_book_get opts st s t _ h cur_ok_default

theorem ledger_ok_clear_one {R : Type} [DecidableEq R]
    (opts : simulation_opts_t R) (acc : sim_state R × List (trade_info_t R))
    (k : R × Nat) (h : ledger_ok acc.1) : ledger_ok (clear_one opts acc k).1 := by
  obtain ⟨st, trades⟩ := acc
  obtain ⟨s, t⟩ := k
  rcases clear_one_spec opts st trades s t with ⟨_, he⟩ | ⟨_, _, _, he⟩ |
    ⟨status, _, _, _, he⟩
  · rw [he]; exact h
  · rw [he]
    exact data_all_book_get opts st s t _ h cur_ok_default
  · rw [he]
    show ledger_ok (book_set opts (book_get opts st s t).2 s t _)
    apply data_all_book_set
    · exact data_all_book_get opts st s t _ h cur_ok_default
    · exact trivial

theorem ledger_ok_ask_apply_one {R : Type} [DecidableEq R]
    (opts : simulation_opts_t R) (st : sim_state R)
    (a : R × Nat × Nat × value_t) (h : ledger_ok st) :
    ledger_ok (ask_apply_one opts st a) := by
  obtain ⟨s, t, id, v⟩ := a
  rcases ask_apply_one_spec opts st s t id v with ⟨_, he⟩ | ⟨_, _, he⟩
  · rw [he]; exact h
  · rw [he]
    apply data_all_book_set
    · exact data_all_book_get opts st s t _ h cur_ok_default
    · exact Or.inl rfl

theorem ledger_ok_tick {R : Type} [DecidableEq R] (opts : simulation_opts_t R)
    (st : sim_state R) (h : ledger_ok st) : ledger_ok (tick opts st).1 := by
  rw [tick]
  set st1 := gen_step opts st with hst1
  set bp := bid_phase_all opts st1 with hbp
  set cl := bp.2.foldl (clear_one opts) (bp.1, []) with hcl
  set ap := ask_phase_all opts cl.1 with hap
  set st5 := ap.2.foldl (ask_apply_one opts) ap.1 with hst5
  set st6 := cull_step opts st5 with hst6
  show ledger_ok (advance st6)
  have h1 : ledger_ok st1 := h
  have h2 : ledger_ok bp.1 := by
    rw [hbp, bid_phase_all]
    have hstep : ∀ (p : sim_state R × List (R × Nat)) (id : Nat),
        ledger_ok p.1 → ledger_ok (agent_bid opts p id).1 := by
      intro p id hp
      rw [agent_bid]
      have hinner : ∀ (q : sim_state R × List (R × Nat)) (c : R × Nat × value_t),
          ledger_ok q.1 → ledger_ok (bid_step opts id q c).1 := by
        intro q c hq
        exact ledger_ok_bid_step opts id q c hq
      exact foldl_pres hinner _ _ hp
    exact foldl_pres hstep _ _ h1
  have h3 : ledger_ok cl.1 := by
    rw [hcl]
    have hstep : ∀ (p : sim_state R × List (trade_info_t R)) (k : R × Nat),
        ledger_ok p.1 → ledger_ok (clear_one opts p k).1 := by
      intro p k hp
      exact ledger_ok_clear_one opts p k hp
    exact foldl_pres hstep _ _ h2
  have h4 : ledger_ok ap.1 := by
    rw [hap, ask_phase_all]
    have hstep : ∀ (p : sim_state R × List (R × Nat × Nat × value_t)) (id : Nat),
        ledger_ok p.1 → ledger_ok (agent_ask opts p id).1 := by
      intro p id hp
      rw [agent_ask]
      have hinner : ∀ (q : sim_state R × List (R × Nat × Nat × value_t))
          (c : R × Nat × value_t),
          ledger_ok q.1 → ledger_ok (ask_step opts id q c).1 := by
        intro q c hq
        exact ledger_ok_ask_step opts id q c hq
      exact foldl_pres hinner _ _ hp
    exact foldl_pres hstep _ _ h3
  have h5 : ledger_ok st5 := by
    rw [hst5]
    have hstep : ∀ (p : sim_state R) (a : R × Nat × Nat × value_t),
        ledger_ok p → ledger_ok (ask_apply_one opts p a) := by
      intro p a hp
      exact ledger_ok_ask_apply_one opts p a hp
    exact foldl_pres hstep _ _ h4
  have h6 : ledger_ok st6 := by
    intro b hb e he
    rw [hst6] at hb
    rw [(cull_step_frame opts st5).2] at hb
    exact h5 b hb e he
  intro b hb e he
  have hb' : b ∈ st6.data := List.tail_subset st6.data hb
  exact h6 b hb' e he

/-- C6: the invariant "every `OnSale` record has `highest_bidder = NONE` or
`highest_bid > min_value`" holds for the lazily created default record and
is preserved across every ledger mutation: each bid-closure call, each ask
application, and the whole tick. -/
theorem C6_on_sale_bid_above_floor :
    cur_ok default_record.current ∧
    (∀ (R : Type) (inst : DecidableEq R) (opts : simulation_opts_t R)
       (id : Nat) (st : sim_state R) (bids : List (R × Nat))
       (c : R × Nat × value_t),
       ledger_ok st → ledger_ok (bid_step opts id (st, bids) c).1) ∧
    (∀ (R : Type) (inst : DecidableEq R) (opts : simulation_opts_t R)
       (st : sim_state R) (a : R × Nat × Nat × value_t),
       ledger_ok st → ledger_ok (ask_apply_one opts st a)) ∧
    (∀ (R : Type) (inst : DecidableEq R) (opts : simulation_opts_t R)
       (st : sim_state R),
       ledger_ok st → ledger_ok (tick opts st).1) :=
  ⟨cur_ok_default,
   fun _ _ opts id st bids c h => ledger_ok_bid_step opts id (st, bids) c h,
   fun _ _ opts st a h => ledger_ok_ask_apply_one opts st a h,
   fun _ _ opts st h => ledger_ok_tick opts st h⟩

/-- C6 witness: the invariant holds on a concrete nonempty ledger, after an
accepted bid on it, after an ask application on it, and after a full tick
of the buy-then-ask scenario. -/
theorem C6_on_sale_bid_above_floor_witness :
    ledger_ok sc_c8_state ∧
    ledger_ok (bid_step sc_noop_opts 3 (sc_c8_state, []) (0, 1, 9)).1 ∧
    ledger_ok (ask_apply_one sc_noop_opts sc_c8_state (0, 1, 2, 3)) ∧
    ledger_ok (tick sc_opts1 (init_state sc_opts1 0)).1 :=
  ⟨by decide,
   C6_on_sale_bid_above_floor.2.1 Nat inferInstance sc_noop_opts 3 sc_c8_state
     [] (0, 1, 9) (by decide),
   C6_on_sale_bid_above_floor.2.2.1 Nat inferInstance sc_noop_opts sc_c8_state
     (0, 1, 2, 3) (by decide),
   C6_on_sale_bid_above_floor.2.2.2 Nat inferInstance sc_opts1
     (init_state sc_opts1 0) (by decide)⟩

/-! ## Claim C10: no pending bid survives into the next tick -/

theorem cur_clean_default : cur_clean default_record.current := ⟨rfl, rfl⟩

theorem tracked_congr {R : Type} [DecidableEq R] (opts : simulation_opts_t R)
    (st st' : sim_state R) (bids : List (R × Nat)) (ht0 : st'.t0 = st.t0)
    (hent : ∀ i, entries_at st' i = entries_at st i)
    (h : bid_dirty_tracked opts st bids) : bid_dirty_tracked opts st' bids := by
  intro i e he hd
  rw [hent i] at he
  obtain ⟨h1, h2, h3, h4⟩ := h i e he hd
  exact ⟨h1, by rw [ht0]; exact h2, by rw [ht0]; exact h3,
    by rw [hent i]; exact h4⟩

theorem tracked_mono {R : Type} [DecidableEq R] (opts : simulation_opts_t R)
    (st : sim_state R) (bids bids' : List (R × Nat))
    (hsub : ∀ k ∈ bids, k ∈ bids')
    (h : bid_dirty_tracked opts st bids) : bid_dirty_tracked opts st bids' := by
  intro i e he hd
  obtain ⟨h1, h2, h3, h4⟩ := h i e he hd
  exact ⟨hsub e.1 h1, h2, h3, h4⟩

theorem tracked_bucket_bset {R : Type} [DecidableEq R]
    (opts : simulation_opts_t R) (st st' : sim_state R)
    (bids : List (R × Nat)) (k : R × Nat) (r : permit_private_status_t)
    (j : Nat) (ht0 : st'.t0 = st.t0)
    (hent : ∀ i, i ≠ j → entries_at st' i = entries_at st i)
    (hentj : entries_at st' j = bset (entries_at st j) k r)
    (hnew : ¬ cur_clean r.current →
      (k ∈ bids ∧ k.2 = j + st.t0 ∧ in_window opts st.t0 k.2 = true))
    (h : bid_dirty_tracked opts st bids) : bid_dirty_tracked opts st' bids := by
  intro i e he hd
  by_cases hij : i = j
  · subst hij
    rw [hentj] at he
    rcases mem_bset _ _ _ _ he with hek | ⟨heold, hne⟩
    · rw [hek] at hd ⊢
      obtain ⟨hk1, hk2, hk3⟩ := hnew hd
      refine ⟨hk1, ?_, ?_, ?_⟩
      · rw [ht0]; exact hk2
      · rw [ht0]; exact hk3
      · rw [hentj]; exact bfind_bset_self _ _ _
    · obtain ⟨h1, h2, h3, h4⟩ := h i e heold hd
      refine ⟨h1, ?_, ?_, ?_⟩
      · rw [ht0]; exact h2
      · rw [ht0]; exact h3
      · rw [hentj, bfind_bset_ne _ _ _ _ hne]; exact h4
  · rw [hent i hij] at he
    obtain ⟨h1, h2, h3, h4⟩ := h i e he hd
    exact ⟨h1, by rw [ht0]; exact h2, by rw [ht0]; exact h3,
      by rw [hent i hij]; exact h4⟩

theorem entries_book_get_cases {R : Type} [DecidableEq R]
    (opts : simulation_opts_t R) (st : sim_state R) (s : R) (t : Nat) :
    (∀ i, entries_at (book_get opts st s t).2 i = entries_at st i) ∨
    (rec_at st s t = none ∧ ¬ t < st.t0 ∧ in_window opts st.t0 t = true ∧
     (∀ i, i ≠ t - st.t0 →
        entries_at (book_get opts st s t).2 i = entries_at st i) ∧
     entries_at (book_get opts st s t).2 (t - st.t0) =
       bset (entries_at st (t - st.t0)) (s, t) default_record) := by
  by_cases h1 : t < st.t0
  · rw [book_get_ool_lt opts st s t h1]
    exact Or.inl (fun i => rfl)
  · cases h2 : in_window opts st.t0 t with
    | false =>
      rw [book_get_ool_win opts st s t h1 h2]
      exact Or.inl (fun i => rfl)
    | true =>
      cases hf : rec_at st s t with
      | some rec =>
        rw [book_get_found opts st s t rec h1 h2 hf]
        refine Or.inl (fun i => ?_)
        show (grow_to st.data (t - st.t0 + 1)).getD i [] = _
        rw [getD_grow_to]
        rfl
      | none =>
        rw [book_get_not_found opts st s t h1 h2 hf]
        refine Or.inr ⟨rfl, h1, rfl, fun i hi => ?_, ?_⟩
        · show ((grow_to st.data (t - st.t0 + 1)).set (t - st.t0) _).getD i [] = _
          rw [getD_set_ne [] _ _ _ _ (fun hc => hi hc.symm), getD_grow_to]
          rfl
        · show ((grow_to st.data (t - st.t0 + 1)).set (t - st.t0) _).getD (t - st.t0) [] = _
          rw [getD_set_self]
          rw [length_grow_to]
          omega

theorem entries_book_set_cases {R : Type} [DecidableEq R]
    (opts : simulation_opts_t R) (st : sim_state R) (s : R) (t : Nat)
    (rec : permit_private_status_t) :
    (∀ i, entries_at (book_set opts st s t rec) i = entries_at st i) ∨
    (¬ t < st.t0 ∧ in_window opts st.t0 t = true ∧
     (∀ i, i ≠ t - st.t0 →
        entries_at (book_set opts st s t rec) i = entries_at st i) ∧
     entries_at (book_set opts st s t rec) (t - st.t0) =
       bset (entries_at st (t - st.t0)) (s, t) rec) := by
  by_cases h1 : t < st.t0
  · rw [book_set, if_pos h1]
    exact Or.inl (fun i => rfl)
  · cases h2 : in_window opts st.t0 t with
    | false =>
      have hbs : book_set opts st s t rec = st := by
        rw [book_set, if_neg h1]
        simp [h2]
      rw [hbs]
      exact Or.inl (fun i => rfl)
    | true =>
      refine Or.inr ⟨h1, rfl, fun i hi => ?_, ?_⟩
      · rw [entries_book_set opts st s t rec h1 h2 i, if_neg hi]
      · rw [entries_book_set opts st s t rec h1 h2 _, if_pos rfl]

theorem tracked_book_get {R : Type} [DecidableEq R]
    (opts : simulation_opts_t R) (st : sim_state R) (s : R) (t : Nat)
    (bids : List (R × Nat)) (h : bid_dirty_tracked opts st bids) :
    bid_dirty_tracked opts (book_get opts st s t).2 bids := by
  have ht0 := (book_get_frame opts st s t).1
  rcases entries_book_get_cases opts st s t with hall | ⟨_, _, _, hne, hj⟩
  · exact tracked_congr opts st _ bids ht0 hall h
  · exact tracked_bucket_bset opts st _ bids (s, t) default_record
      (t - st.t0) ht0 hne hj (fun hd => absurd cur_clean_default hd) h

theorem tracked_book_set_clean {R : Type} [DecidableEq R]
    (opts : simulation_opts_t R) (st : sim_state R) (s : R) (t : Nat)
    (rec : permit_private_status_t) (bids : List (R × Nat))
    (hc : cur_clean rec.current)
    (h : bid_dirty_tracked opts st bids) :
    bid_dirty_tracked opts (book_set opts st s t rec) bids := by
  have ht0 := (book_set_frame opts st s t rec).1
  rcases entries_book_set_cases opts st s t rec with hall | ⟨_, _, hne, hj⟩
  · exact tracked_congr opts st _ bids ht0 hall h
  · exact tracked_bucket_bset opts st _ bids (s, t) rec (t - st.t0) ht0 hne hj
      (fun hd => absurd hc hd) h

theorem tracked_book_set_key {R : Type} [DecidableEq R]
    (opts : simulation_opts_t R) (st : sim_state R) (s : R) (t : Nat)
    (rec : permit_private_status_t) (bids : List (R × Nat))
    (hk : (s, t) ∈ bids) (h0 : ¬ t < st.t0)
    (h2 : in_window opts st.t0 t = true)
    (h : bid_dirty_tracked opts st bids) :
    bid_dirty_tracked opts (book_set opts st s t rec) bids := by
  have ht0 := (book_set_frame opts st s t rec).1
  rcases entries_book_set_cases opts st s t rec with hall | ⟨_, _, hne, hj⟩
  · exact tracked_congr opts st _ bids ht0 hall h
  · refine tracked_bucket_bset opts st _ bids (s, t) rec (t - st.t0) ht0 hne hj
      (fun _ => ⟨hk, ?_, h2⟩) h
    show t = t - st.t0 + st.t0
    omega

theorem bid_step_tracked {R : Type} [DecidableEq R]
    (opts : simulation_opts_t R) (id : Nat)
    (acc : sim_state R × List (R × Nat)) (c : R × Nat × value_t)
    (h : bid_dirty_tracked opts acc.1 acc.2) :
    bid_dirty_tracked opts (bid_step opts id acc c).1 (bid_step opts id acc c).2 := by
  obtain ⟨st, bids⟩ := acc
  obtain ⟨s, t, v⟩ := c
  have hgfr := (book_get_frame opts st s t).1
  rcases apply_bid_spec opts id st bids s t v with
    ⟨_, he⟩ | ⟨_, _, he⟩ | ⟨_, _, _, he⟩ | ⟨status, _, _, _, _, he⟩ |
    ⟨status, h0, h2, hcur, hg, he⟩
  · rw [bid_step, he]; exact h
  · rw [bid_step, he]; exact h
  · rw [bid_step, he]; exact tracked_book_get opts st s t bids h
  · rw [bid_step, he]; exact tracked_book_get opts st s t bids h
  · rw [bid_step, he]
    by_cases hbid : status.highest_bidder = no_owner
    · simp only [hbid, if_pos rfl]
      show bid_dirty_tracked opts
        (book_set opts (book_get opts st s t).2 s t _) (bids ++ [(s, t)])
      apply tracked_book_set_key
      · exact List.mem_append_right bids (List.mem_singleton_self _)
      · rw [hgfr]; exact h0
      · rw [hgfr]; exact h2
      · exact tracked_mono opts _ bids _ (fun k hk => List.mem_append_left _ hk)
          (tracked_book_get opts st s t bids h)
    · simp only [if_neg hbid]
      show bid_dirty_tracked opts
        (book_set opts (book_get opts st s t).2 s t _) bids
      have hmem : (s, t) ∈ bids := by
        cases hf : rec_at st s t with
        | none =>
          rw [hf] at hcur
          have : status = {} := by
            have := hcur.symm
            cases this
            rfl
          rw [this] at hbid
          exact absurd rfl hbid
        | some rec0 =>
          rw [hf] at hcur
          have hdirty : ¬ cur_clean rec0.current := by
            show ¬ cur_clean rec0.current
            rw [show rec0.current = permit_current_t.on_sale status from hcur]
            exact fun hcl => hbid hcl.1
          have hin : ((s, t), rec0) ∈ entries_at st (t - st.t0) :=
            bfind_mem _ _ _ hf
          exact (h (t - st.t0) ((s, t), rec0) hin hdirty).1
      apply tracked_book_set_key
      · exact hmem
      · rw [hgfr]; exact h0
      · rw [hgfr]; exact h2
      · exact tracked_book_get opts st s t bids h

theorem tracked_of_clean {R : Type} [DecidableEq R]
    (opts : simulation_opts_t R) (st : sim_state R)
    (h : ledger_clean st) : bid_dirty_tracked opts st [] := by
  intro i e he hd
  obtain ⟨b, hb, he'⟩ := mem_of_entries_at st i e he
  exact absurd (h b hb e he') hd

theorem clean_of_tracked_nil {R : Type} [DecidableEq R]
    (opts : simulation_opts_t R) (st : sim_state R)
    (h : bid_dirty_tracked opts st []) : ledger_clean st := by
  intro b hb e he
  by_contra hd
  obtain ⟨i, hi⟩ := entries_at_of_mem st b hb
  have := (h i e (by rw [hi]; exact he) hd).1
  cases this

theorem bid_phase_all_tracked {R : Type} [DecidableEq R]
    (opts : simulation_opts_t R) (st : sim_state R) (h : ledger_clean st) :
    bid_dirty_tracked opts (bid_phase_all opts st).1 (bid_phase_all opts st).2 := by
  rw [bid_phase_all]
  have hstep : ∀ (p : sim_state R × List (R × Nat)) (id : Nat),
      bid_dirty_tracked opts p.1 p.2 →
      bid_dirty_tracked opts (agent_bid opts p id).1 (agent_bid opts p id).2 := by
    intro p id hp
    rw [agent_bid]
    have hinner : ∀ (q : sim_state R × List (R × Nat)) (c : R × Nat × value_t),
        bid_dirty_tracked opts q.1 q.2 →
        bid_dirty_tracked opts (bid_step opts id q c).1 (bid_step opts id q c).2 := by
      intro q c hq
      exact bid_step_tracked opts id q c hq
    exact foldl_pres hinner _ _ hp
  exact foldl_pres hstep _ _ (tracked_of_clean opts st h)

theorem tracked_filter_key {R : Type} [DecidableEq R]
    (opts : simulation_opts_t R) (st : sim_state R) (k : R × Nat)
    (rest : List (R × Nat)) (h : bid_dirty_tracked opts st (k :: rest))
    (hk : ∀ r, rec_at st k.1 k.2 = some r → cur_clean r.current) :
    bid_dirty_tracked opts st rest := by
  intro i e he hd
  obtain ⟨hmem, hpos, hwin, hbf⟩ := h i e he hd
  rcases List.mem_cons.1 hmem with hek | hek
  · exfalso
    have hrec : rec_at st e.1.1 e.1.2 = some e.2 := by
      rw [rec_at]
      have hidx : e.1.2 - st.t0 = i := by omega
      rw [hidx]
      exact hbf
    rw [hek] at hrec
    exact hd ((by
      rw [rec_at] at hrec
      have : bfind (entries_at st (k.2 - st.t0)) (k.1, k.2) =
          bfind (entries_at st (k.2 - st.t0)) k := by
        rw [show ((k.1, k.2) : R × Nat) = k from rfl]
      rw [this] at hrec
      exact hk e.2 hrec) : cur_clean e.2.current)
  · exact ⟨hek, hpos, hwin, hbf⟩

theorem clear_one_consume {R : Type} [DecidableEq R]
    (opts : simulation_opts_t R) (acc : sim_state R × List (trade_info_t R))
    (k : R × Nat) (rest : List (R × Nat))
    (h : bid_dirty_tracked opts acc.1 (k :: rest)) :
    bid_dirty_tracked opts (clear_one opts acc k).1 rest := by
  obtain ⟨st, trades⟩ := acc
  obtain ⟨s, t⟩ := k
  have hgfr := (book_get_frame opts st s t).1
  rcases clear_one_spec opts st trades s t with ⟨hcase, he⟩ | ⟨h0, h2, hns, he⟩ |
    ⟨status, h0, h2, hcur, he⟩
  · rw [he]
    apply tracked_filter_key opts st (s, t) rest h
    intro r hr
    by_cases hcl : cur_clean r.current
    · exact hcl
    · exfalso
      have hin : ((s, t), r) ∈ entries_at st (t - st.t0) := bfind_mem _ _ _ hr
      obtain ⟨_, hpos, hwin, _⟩ := h (t - st.t0) ((s, t), r) hin hcl
      have hpos' : t = (t - st.t0) + st.t0 := hpos
      have hwin' : in_window opts st.t0 t = true := hwin
      rcases hcase with hlt | hwf
      · omega
      · rw [hwf] at hwin'
        cases hwin'
  · rw [he]
    apply tracked_filter_key
    · exact tracked_book_get opts st s t (((s, t)) :: rest) h
    · intro r hr
      rw [rec_at_book_get_self opts st s t h0 h2] at hr
      cases hr
      cases hcv : ((rec_at st s t).getD default_record).current with
      | on_sale st' => exact absurd hcv (hns st')
      | in_use o => exact trivial
      | out_of_limits => exact trivial
  · rw [he]
    apply tracked_filter_key
    · apply tracked_book_set_clean
      · exact trivial
      · exact tracked_book_get opts st s t (((s, t)) :: rest) h
    · intro r hr
      have ht0 := (book_set_frame opts (book_get opts st s t).2 s t
        { current := .in_use status.highest_bidder
          history := ((rec_at st s t).getD default_record).history ++
            [⟨status.min_value, status.highest_bid⟩] }).1
      rw [rec_at_book_set_self opts (book_get opts st s t).2 s t _
        (by rw [hgfr]; exact h0) (by rw [hgfr]; exact h2)] at hr
      cases hr
      exact trivial

theorem ledger_clean_ask_step {R : Type} [DecidableEq R]
    (opts : simulation_opts_t R) (id : Nat)
    (acc : sim_state R × List (R × Nat × Nat × value_t))
    (c : R × Nat × value_t) (h : ledger_clean acc.1) :
    ledger_clean (ask_step opts id acc c).1 := by
  obtain ⟨st, asks⟩ := acc
  obtain ⟨s, t, v⟩ := c
  rcases apply_ask_spec opts id st asks (s, t, v) with ⟨he, _⟩ | ⟨he, _⟩
  · rw [ask_step, he]; exact h
  · rw [ask_step, he]
    exact data_all_book_get opts st s t _ h cur_clean_default

theorem ledger_clean_ask_apply_one {R : Type} [DecidableEq R]
    (opts : simulation_opts_t R) (st : sim_state R)
    (a : R × Nat × Nat × value_t) (h : ledger_clean st) :
    ledger_clean (ask_apply_one opts st a) := by
  obtain ⟨s, t, id, v⟩ := a
  rcases ask_apply_one_spec opts st s t id v with ⟨_, he⟩ | ⟨_, _, he⟩
  · rw [he]; exact h
  · rw [he]
    apply data_all_book_set
    · exact data_all_book_get opts st s t _ h cur_clean_default
    · exact ⟨rfl, rfl⟩

theorem ledger_clean_tick {R : Type} [DecidableEq R]
    (opts : simulation_opts_t R) (st : sim_state R) (h : ledger_clean st) :
    ledger_clean (tick opts st).1 := by
  rw [tick]
  set st1 := gen_step opts st with hst1
  set bp := bid_phase_all opts st1 with hbp
  set cl := bp.2.foldl (clear_one opts) (bp.1, []) with hcl
  set ap := ask_phase_all opts cl.1 with hap
  set st5 := ap.2.foldl (ask_apply_one opts) ap.1 with hst5
  set st6 := cull_step opts st5 with hst6
  show ledger_clean (advance st6)
  have h1 : ledger_clean st1 := h
  have h2 : bid_dirty_tracked opts bp.1 bp.2 := by
    rw [hbp]
    exact bid_phase_all_tracked opts st1 h1
  have h3 : ledger_clean cl.1 := by
    apply clean_of_tracked_nil opts cl.1
    have hstep : ∀ (p : sim_state R × List (trade_info_t R)) (k : R × Nat)
        (rest : List (R × Nat)),
        bid_dirty_tracked opts p.1 (k :: rest) →
        bid_dirty_tracked opts (clear_one opts p k).1 rest := by
      intro p k rest hp
      exact clear_one_consume opts p k rest hp
    rw [hcl]
    exact foldl_consume hstep bp.2 (bp.1, []) h2
  have h4 : ledger_clean ap.1 := by
    rw [hap, ask_phase_all]
    have hstep : ∀ (p : sim_state R × List (R × Nat × Nat × value_t)) (id : Nat),
        ledger_clean p.1 → ledger_clean (agent_ask opts p id).1 := by
      intro p id hp
      rw [agent_ask]
      have hinner : ∀ (q : sim_state R × List (R × Nat × Nat × value_t))
          (c : R × Nat × value_t),
          ledger_clean q.1 → ledger_clean (ask_step opts id q c).1 := by
        intro q c hq
        exact ledger_clean_ask_step opts id q c hq
      exact foldl_pres hinner _ _ hp
    exact foldl_pres hstep _ _ h3
  have h5 : ledger_clean st5 := by
    rw [hst5]
    have hstep : ∀ (p : sim_state R) (a : R × Nat × Nat × value_t),
        ledger_clean p → ledger_clean (ask_apply_one opts p a) := by
      intro p a hp
      exact ledger_clean_ask_apply_one opts p a hp
    exact foldl_pres hstep _ _ h4
  have h6 : ledger_clean st6 := by
    intro b hb e he
    rw [hst6] at hb
    rw [(cull_step_frame opts st5).2] at hb
    exact h5 b hb e he
  intro b hb e he
  have hb' : b ∈ st6.data := List.tail_subset st6.data hb
  exact h6 b hb' e he

/-- C10: at the start of every bid phase, every `OnSale` record in the
ledger has `highest_bidder = NONE` and `highest_bid = 0`: the invariant
holds in the initial (empty) ledger, agent generation does not touch the
ledger (so the state at bid-phase start has the tick-start ledger), and one
full tick preserves it — every permit bid on during a tick is keyed in the
pending-winners list and overwritten to `InUse` in that same tick's
clearing, and ask application writes only bidderless `OnSale` records, so
no pending bid survives into the next tick. -/
theorem C10_bid_phase_starts_with_clean_book :
    (∀ (R : Type) (inst : DecidableEq R) (opts : simulation_opts_t R)
       (entropy : Int), ledger_clean (init_state opts entropy)) ∧
    (∀ (R : Type) (inst : DecidableEq R) (opts : simulation_opts_t R)
       (st : sim_state R), (gen_step opts st).data = st.data) ∧
    (∀ (R : Type) (inst : DecidableEq R) (opts : simulation_opts_t R)
       (st : sim_state R), ledger_clean st → ledger_clean (tick opts st).1) :=
  ⟨fun _ _ _ _ b hb => absurd hb (List.not_mem_nil b),
   fun _ _ _ _ => rfl,
   fun _ _ opts st h => ledger_clean_tick opts st h⟩

/-- C10 witness: the tick of the buy-then-ask scenario, starting from the
clean initial ledger, ends with a clean ledger (the bought-and-asked permit
carries no pending bid), and so does the tie-break scenario's tick. -/
theorem C10_bid_phase_starts_with_clean_book_witness :
    ledger_clean (init_state sc_opts1 0) ∧
    ledger_clean (tick sc_opts1 (init_state sc_opts1 0)).1 ∧
    ledger_clean (tick sc_opts3 (init_state sc_opts3 0)).1 :=
  ⟨C10_bid_phase_starts_with_clean_book.1 Nat inferInstance sc_opts1 0,
   C10_bid_phase_starts_with_clean_book.2.2 Nat inferInstance sc_opts1
     (init_state sc_opts1 0) (by decide),
   C10_bid_phase_starts_with_clean_book.2.2 Nat inferInstance sc_opts3
     (init_state sc_opts3 0) (by decide)⟩
